import Mathlib

/-!
Verification of the incremental SSE event emitter / adaptive chunking engine
of the ash terminal backend (src/backend/app.py, the `generate` generator of
`execute_task_stream`).

The embedding mirrors the Python source:
* JSON payloads are ordered key/value lists (Python dicts preserve insertion
  order); serialization follows `json.dumps(obj, ensure_ascii=False)` with its
  default separators and escape rules.
* Python strings are Lean `String`s (sequences of unicode scalar values);
  `len(s)` is the character count, `len(s.encode("utf-8"))` is the summed
  UTF-8 size of the characters.
* `int(chunk_size * 0.7)` is modelled bit-exactly: 0.7 as an IEEE-754 double
  is 6305039478318694 / 2^53, the product is rounded to nearest-even double
  and truncated.  `int(total_raw_size * 0.2)` coincides with `n / 5` on the
  whole relevant range (0.2 as a double is slightly above 1/5, so truncation
  never crosses an integer boundary downward).
-/

namespace Ash

set_option maxRecDepth 16384

/-- Characters used for the JSON object braces (written via codes so that no
brace appears inside a literal). -/
def lbrace : Char := Char.ofNat 123

def rbrace : Char := Char.ofNat 125

/-- JSON values appearing in the wire events built by `generate`. -/
inductive JVal where
  | s (v : String)
  | n (v : Nat)
  | i (v : Int)
  | b (v : Bool)
  | null
  deriving DecidableEq, Repr

/-- A JSON object as an ordered association list, mirroring a Python dict. -/
abbrev Payload := List (String × JVal)

/-- Python `d[k] = v`: replace the value in place if the key exists, else
append the pair at the end (dicts preserve insertion order). -/
def dictSet (p : Payload) (k : String) (v : JVal) : Payload :=
  if p.any (fun e => e.1 = k) then
    p.map (fun e => if e.1 = k then (k, v) else e)
  else p ++ [(k, v)]

/-- First value stored under key `k`. -/
def lookupVal (p : Payload) (k : String) : Option JVal :=
  (p.find? (fun e => e.1 = k)).map (fun e => e.2)

/-- Lowercase hexadecimal digit, as produced by `json.dumps` for control
characters. -/
def hexDigit (n : Nat) : Char :=
  if n < 10 then Char.ofNat (48 + n) else Char.ofNat (87 + n)

/-- Escaping of one character by `json.dumps(..., ensure_ascii=False)`:
quote and backslash are escaped, the five short control escapes are used,
remaining control characters become `\u00XX`, everything else is kept. -/
def jsonEscapeChar (c : Char) : List Char :=
  if c = '"' then ['\\', '"']
  else if c = '\\' then ['\\', '\\']
  else if c = '\n' then ['\\', 'n']
  else if c = '\t' then ['\\', 't']
  else if c = '\r' then ['\\', 'r']
  else if c.toNat = 8 then ['\\', 'b']
  else if c.toNat = 12 then ['\\', 'f']
  else if c.toNat < 32 then
    ['\\', 'u', '0', '0', hexDigit (c.toNat / 16), hexDigit (c.toNat % 16)]
  else [c]

/-- Serialized JSON string literal (with surrounding quotes). -/
def jsonString (s : String) : List Char :=
  '"' :: (s.data.map jsonEscapeChar).flatten ++ ['"']

/-- Serialization of one JSON value. -/
def JVal.ser : JVal → List Char
  | .s v => jsonString v
  | .n v => (toString v).data
  | .i v => (toString v).data
  | .b true => ['t', 'r', 'u', 'e']
  | .b false => ['f', 'a', 'l', 's', 'e']
  | .null => ['n', 'u', 'l', 'l']

/-- Serialization of one `"key": value` entry. -/
def entrySer (e : String × JVal) : List Char :=
  jsonString e.1 ++ [':', ' '] ++ e.2.ser

/-- `", ".join(entries)` — the default item separator of `json.dumps`. -/
def joinEntries : List (List Char) → List Char
  | [] => []
  | [e] => e
  | e :: e2 :: rest => e ++ [',', ' '] ++ joinEntries (e2 :: rest)

/-- `json.dumps(obj, ensure_ascii=False)` for a payload. -/
def jsonDumps (p : Payload) : List Char :=
  lbrace :: joinEntries (p.map entrySer) ++ [rbrace]

/-- Summed UTF-8 byte size of a character list: `len(s.encode("utf-8"))`. -/
def utf8Len (l : List Char) : Nat := (l.map Char.utf8Size).sum

/-- A wire frame: the bytes of one SSE message. -/
abbrev Frame := List Char

/-- `_serialize_sse`: the SSE envelope `data: <json>\n\n` around a payload. -/
def sseFrame (p : Payload) : Frame :=
  ('d' :: 'a' :: 't' :: 'a' :: ':' :: ' ' :: jsonDumps p) ++ ['\n', '\n']

/-- The byte size returned by `_serialize_sse`. -/
def sseSize (p : Payload) : Nat := utf8Len (sseFrame p)

/-- `MAX_CHUNK_SIZE = 32 * 1024` (app.py line 265). -/
def MAX_CHUNK_SIZE : Nat := 32 * 1024

/-- `AUTO_SUMMARY_THRESHOLD = 5 * 1024 * 1024` (app.py line 527). -/
def AUTO_SUMMARY_THRESHOLD : Nat := 5 * 1024 * 1024

/-- `MAX_ASSISTANT_CONTENT_SIZE = 5 * 1024 * 1024` (app.py line 413). -/
def MAX_ASSISTANT_CONTENT_SIZE : Nat := 5 * 1024 * 1024

/-- `_emit` succeeds iff the serialized frame is strictly below the ceiling. -/
def emitOk (p : Payload) : Bool := sseSize p < MAX_CHUNK_SIZE

/-- The frames actually written by one `_emit` call: the single frame on
success, nothing at all on rejection. -/
def emitFrames (p : Payload) : List Frame :=
  if emitOk p then [sseFrame p] else []

/-! ### Python arithmetic helpers -/

/-- Number of bits of a natural number (0 for 0). -/
def bitLen (n : Nat) : Nat := if n = 0 then 0 else Nat.log 2 n + 1

/-- The mantissa of 0.7 as an IEEE-754 double: `0.7 = pointSevenM / 2^53`. -/
def pointSevenM : Nat := 6305039478318694

/-- Round `p / 2^s` to the nearest integer, ties to even — the IEEE-754
rounding of the exact product down to a 53-bit mantissa. -/
def roundQ (p s : Nat) : Nat :=
  if 2 ^ (s - 1) < p % 2 ^ s ∨ (p % 2 ^ s = 2 ^ (s - 1) ∧ (p / 2 ^ s) % 2 = 1)
  then p / 2 ^ s + 1 else p / 2 ^ s

/-- Bit-exact model of Python `int(c * 0.7)` for a nonnegative int `c`:
the exact rational `c * pointSevenM / 2^53` is rounded to the nearest
double (ties to even) and the result truncated toward zero.  Checked against
CPython for every `c < 200001`. -/
def pyInt07 (c : Nat) : Nat :=
  if bitLen (c * pointSevenM) ≤ 53 then c * pointSevenM / 2 ^ 53
  else
    if 53 ≤ bitLen (c * pointSevenM) - 53 then
      roundQ (c * pointSevenM) (bitLen (c * pointSevenM) - 53) *
        2 ^ (bitLen (c * pointSevenM) - 53 - 53)
    else
      roundQ (c * pointSevenM) (bitLen (c * pointSevenM) - 53) /
        2 ^ (53 - (bitLen (c * pointSevenM) - 53))

/-- Python `len(s)` — the number of characters. -/
def pyLen (s : String) : Nat := s.data.length

/-- Python `len(s.encode("utf-8"))`. -/
def pyUtf8Len (s : String) : Nat := utf8Len s.data

/-- Python `s[:n]`. -/
def pyTake (s : String) (n : Nat) : String := String.mk (s.data.take n)

/-- Python `s[n:]`. -/
def pySliceFrom (s : String) (n : Nat) : String := String.mk (s.data.drop n)

/-- Python `s.startswith(pre)`. -/
def pyStartswith (s pre : String) : Bool := pre.data.isPrefixOf s.data

/-- Python whitespace stripped by `str.strip()` (the ASCII part, which is all
the source ever strips here). -/
def isPySpace (c : Char) : Bool :=
  c = ' ' ∨ c = '\t' ∨ c = '\n' ∨ c = '\r' ∨ c.toNat = 11 ∨ c.toNat = 12

/-- Python `s.strip()`. -/
def pyStrip (s : String) : String :=
  String.mk (((s.data.dropWhile isPySpace).reverse.dropWhile isPySpace).reverse)

/-- Python `s.lower()` (ASCII; the patterns searched are ASCII). -/
def pyLower (s : String) : String := String.mk (s.data.map Char.toLower)

/-- Python `pat in s` — substring containment. -/
def substrIn (pat s : String) : Bool :=
  s.data.tails.any (fun t => pat.data.isPrefixOf t)

/-- Python `a or b` on optional strings: `None` and `""` are falsy. -/
def pyOrStr : Option String → Option String → Option String
  | some s, b => if s = "" then b else some s
  | none, b => b

/-- Python truthiness of an optional string. -/
def optTruthy : Option String → Bool
  | some s => s ≠ ""
  | none => false

/-- JSON rendering of an optional string (`None` becomes `null`). -/
def optStrJ : Option String → JVal
  | some s => .s s
  | none => .null

/-! ### The adaptive text chunker (`_emit_text_chunks`, app.py 287-312) -/

/-- The final error payload of app.py line 305. -/
def sizeLimitErrorPayload : Payload :=
  [("type", JVal.s ("error")),
   ("content", JVal.s ("Server response exceeded size limit. The command output was too large to process."))]

/-- One chunk payload: `payload = dict(base); payload[text_key] = chunk;
payload[index_key] = chunk_index`. -/
def chunkPayload (base : Payload) (textKey indexKey : String)
    (chunk : List Char) (chunkIndex : Nat) : Payload :=
  dictSet (dictSet base textKey (JVal.s (String.mk chunk))) indexKey (JVal.n chunkIndex)

/-- The loop of `_emit_text_chunks`, over the remaining text.  The `fuel`
argument only makes the recursion structural; the entry point supplies
`text.length + chunk_size + 1`, which the loop can never exhaust (each
iteration either consumes at least one character or strictly shrinks the
chunk size).  Returns the success flag together with the payloads that were
written (all of them went through `_emit` and were accepted; on floor breach
the list ends with the one final error payload). -/
def emitChunksGo (base : Payload) (textKey indexKey : String) :
    Nat → List Char → Nat → Nat → Bool × List Payload
  | 0, _, _, _ => (false, [])
  | fuel + 1, rest, chunkSize, chunkIndex =>
    if rest = [] then (true, [])
    else
      let chunk := rest.take chunkSize
      let payload := chunkPayload base textKey indexKey chunk chunkIndex
      if emitOk payload then
        let r := emitChunksGo base textKey indexKey fuel (rest.drop chunk.length) chunkSize (chunkIndex + 1)
        (r.1, payload :: r.2)
      else
        let shrunk := pyInt07 chunkSize
        if shrunk < 5000 then (false, if emitOk sizeLimitErrorPayload then [sizeLimitErrorPayload] else [])
        else emitChunksGo base textKey indexKey fuel rest shrunk chunkIndex

/-- `_emit_text_chunks(base=…, text=…, text_key=…, index_key=…,
initial_chunk_size=…)`. -/
def emitTextChunks (base : Payload) (textKey indexKey : String)
    (text : List Char) (initialChunkSize : Nat) : Bool × List Payload :=
  emitChunksGo base textKey indexKey (text.length + initialChunkSize + 1) text initialChunkSize 0

/-- `_emit_tool_stream_chunks(tool_name, stream, text)` (app.py 314-320). -/
def emitToolStreamChunks (toolName stream : String) (text : String) : Bool × List Payload :=
  if text = "" then (true, [])
  else emitTextChunks
    [("type", JVal.s ("tool_result_chunk")), ("name", JVal.s toolName), ("stream", JVal.s stream)]
    ("chunk") ("index") text.data (30 * 1024)

/-! ### Transcript data model -/

/-- A `function_call` record on an assistant message.  `cmdParse` models the
outcome of `json5.loads(tool_args)` followed by `args.get('command')`:
`some c` is a successful parse with extracted command `c`, `none` is a parse
exception. -/
structure FCall where
  name : Option String
  arguments : Option String
  cmdParse : Option (Option String)

/-- The fields `generate` reads from a tool-result JSON object:
`command`, `output`, `error`, `success`, `exitCode` via `.get` with the
defaults applied at the use sites.  (Content that does not start with a brace
flows through the same structured path with every lookup at its default,
i.e. it behaves as `parsed` with all fields absent/empty.) -/
structure ToolDict where
  command : Option String
  output : String
  error : String
  success : Option Bool
  exitCode : Option Int

/-- Outcome of `json.loads` on a tool message's content: a structured record,
or a `JSONDecodeError` (content starting with a brace that fails to parse),
which takes the raw fallback path of app.py 620-630. -/
inductive ToolParse where
  | parsed (d : ToolDict)
  | malformed

/-- Message roles distinguished by the loop (everything else is ignored). -/
inductive Role where
  | assistant | tool | function | user | system
  deriving DecidableEq

/-- One message of a cumulative response snapshot. -/
structure Msg where
  role : Role
  content : Option String
  functionCall : Option FCall
  name : Option String
  toolParse : ToolParse

/-- The `last_tool_ctx` record (app.py 517-523). -/
structure ToolCtx where
  name : String
  command : Option String
  totalRawSize : Nat
  stdoutHead : String
  stderrHead : String

/-- The mutable turn-local state of `generate`: the last-tool context, the
length of `previous_response`, the `assistant_content_map` (with the
`.get(idx, '')` default baked in), the FIFO `tool_command_queue`, and the
number of summarizer invocations so far (which indexes the summarizer
oracle). -/
structure GenState where
  lastToolCtx : Option ToolCtx
  prevLen : Nat
  contentMap : Nat → String
  queue : List String
  summaryCount : Nat

/-! ### Assistant content deltas (app.py 384-437) -/

/-- The `content_to_send` computation (app.py 393-405), for a non-empty
`contentStr`: first observation sends everything, a pure extension sends the
new suffix, any other change sends the full new content, no change sends
nothing. -/
def deltaOf (previousContent contentStr : String) : String :=
  if previousContent = "" then contentStr
  else if contentStr = previousContent then ""
  else if pyStartswith contentStr previousContent then
    pySliceFrom contentStr (pyLen previousContent)
  else contentStr

/-- Map update `assistant_content_map[idx] = content_str`. -/
def updMap (m : Nat → String) (i : Nat) (v : String) : Nat → String :=
  fun j => if j = i then v else m j

/-- The 5 MiB guard's error payload (app.py 416). -/
def tooLongErrorPayload : Payload :=
  [("type", JVal.s ("error")),
   ("content", JVal.s ("Assistant response too long. Please ask a more specific question."))]

/-- Processing of an assistant message's content for index `idx`
(app.py 384-437).  Returns the written frames, the new state, and whether the
generator returned early (the 5 MiB guard of app.py 411-417). -/
def processAssistantContent (st : GenState) (idx : Nat) (contentStr : String) :
    List Frame × GenState × Bool :=
  if contentStr = "" then ([], st, false)
  else
    let previousContent := st.contentMap idx
    let contentToSend := deltaOf previousContent contentStr
    if contentToSend = "" then ([], st, false)
    else if MAX_ASSISTANT_CONTENT_SIZE < pyUtf8Len contentStr then
      (emitFrames tooLongErrorPayload, st, true)
    else
      let p : Payload := [("type", JVal.s ("content_chunk")), ("content", JVal.s contentToSend)]
      if emitOk p then
        ([sseFrame p], { st with contentMap := updMap st.contentMap idx contentStr }, false)
      else
        let r := emitTextChunks [("type", JVal.s ("content_chunk"))] ("content") ("chunk_index")
          contentToSend.data (15 * 1024)
        (r.2.map sseFrame,
         if r.1 then { st with contentMap := updMap st.contentMap idx contentStr } else st,
         false)

/-- Command extraction from a tool call's arguments (app.py 446-460). -/
def extractCommand (toolName toolArgs : String) (f : FCall) : Option String :=
  if toolName = "ash_ssh_execute" ∨ toolName = "ash_telnet_execute" then
    if toolArgs ≠ "" ∧ pyStrip toolArgs ≠ "" then
      match f.cmdParse with
      | some c => pyOrStr c (some toolArgs)
      | none => if toolArgs ≠ "" then some toolArgs else none
    else none
  else none

/-- The `tool_call` payload written directly (not through `_emit`) at
app.py 472-477. -/
def toolCallPayload (toolName toolArgs : String) (command : Option String) : Payload :=
  [("type", JVal.s ("tool_call")), ("name", JVal.s toolName),
   ("args", JVal.s toolArgs), ("command", optStrJ command)]

/-! ### Tool-result structuring (app.py 481-641) -/

/-- A `{'type': 'message', …, 'role': 'system'}` notification payload. -/
def systemMessagePayload (content : String) : Payload :=
  [("type", JVal.s ("message")), ("content", JVal.s content), ("role", JVal.s ("system"))]

/-- The in-loop stdout replacement after auto-summarization (app.py 556). -/
def annotateSummary (totalRawSize : Nat) (summaryText : String) : String :=
  "[Auto-summarized from " ++ toString totalRawSize ++ " bytes]\n\n" ++ summaryText ++
  "\n\n[Original output was " ++ toString totalRawSize ++
  " bytes. Use a more specific command to see full details.]"

/-- The fully structured `tool_result` payload (app.py 582-590). -/
def structuredResultPayload (toolName : String) (finalCommand : Option String)
    (success : Bool) (exitCode : Int) (stdout stderr : String) : Payload :=
  [("type", JVal.s ("tool_result")), ("name", JVal.s toolName),
   ("command", optStrJ finalCommand), ("success", JVal.b success),
   ("exitCode", JVal.i exitCode), ("stdout", JVal.s stdout), ("stderr", JVal.s stderr)]

/-- The chunked-delivery metadata payload (app.py 602-612). -/
def chunkedMetadataPayload (toolName : String) (finalCommand : Option String)
    (success : Bool) (exitCode : Int) (totalSize : Nat) : Payload :=
  [("type", JVal.s ("tool_result")), ("name", JVal.s toolName),
   ("command", optStrJ finalCommand), ("success", JVal.b success),
   ("exitCode", JVal.i exitCode), ("stdout", JVal.s ("")), ("stderr", JVal.s ("")),
   ("chunked", JVal.b true), ("total_size", JVal.n totalSize)]

/-- Chunked delivery of an oversized tool result (app.py 599-619): metadata
event, stdout chunks, stderr chunks, completion event when both succeeded. -/
def forcedChunkFrames (toolName : String) (finalCommand : Option String)
    (success : Bool) (exitCode : Int) (stdout stderr : String) (totalSize : Nat) : List Frame :=
  let mFrames := emitFrames (chunkedMetadataPayload toolName finalCommand success exitCode totalSize)
  let rOut := emitToolStreamChunks toolName ("stdout") stdout
  let rErr := emitToolStreamChunks toolName ("stderr") stderr
  mFrames ++ rOut.2.map sseFrame ++ rErr.2.map sseFrame ++
    (if rOut.1 ∧ rErr.1 then
      emitFrames [("type", JVal.s ("tool_result_complete")), ("name", JVal.s toolName)]
    else [])

/-- Processing of one newly observed tool/function message (app.py 481-641).
`orc` is the summarizer oracle: `orc n` is the result of the `n`-th
`_generate_summary_text` call of the turn (`none` models an exception in the
summarizer, which the source catches). -/
def processToolResult (orc : Nat → Option String) (st : GenState) (msg : Msg) :
    List Frame × GenState :=
  let toolName := msg.name.getD ("unknown_tool")
  let toolContent := msg.content.getD ("")
  -- app.py 488-491: pop the FIFO queue if non-empty
  let command : Option String := st.queue.head?
  let st := { st with queue := st.queue.tail }
  match msg.toolParse with
  | .malformed =>
    -- fallback path, app.py 620-630
    let p : Payload := [("type", JVal.s ("tool_result")), ("name", JVal.s toolName),
      ("command", optStrJ command), ("content", JVal.s toolContent)]
    if emitOk p then ([sseFrame p], st)
    else
      let maxContentSize := MAX_CHUNK_SIZE - 500
      let truncated := if maxContentSize < pyLen toolContent then pyTake toolContent maxContentSize
        else toolContent
      let p2 : Payload := [("type", JVal.s ("tool_result")), ("name", JVal.s toolName),
        ("command", optStrJ command), ("content", JVal.s truncated), ("truncated", JVal.b true)]
      (emitFrames p2, st)
  | .parsed d =>
    let finalCommand := pyOrStr d.command command
    let stdout := d.output
    let stderr := d.error
    let stdoutSize := pyUtf8Len stdout
    let stderrSize := pyUtf8Len stderr
    let totalRawSize := stdoutSize + stderrSize
    -- app.py 517-523: update last-tool context
    let ctx : ToolCtx := { name := toolName, command := finalCommand,
                           totalRawSize := totalRawSize,
                           stdoutHead := pyTake stdout 10000,
                           stderrHead := pyTake stderr 2000 }
    let st := { st with lastToolCtx := some ctx }
    let shouldAutoSummarize := AUTO_SUMMARY_THRESHOLD < totalRawSize
    -- app.py 533-534: int(total_raw_size * 0.2) = total_raw_size / 5 (truncation
    -- of the rounded double never crosses an integer boundary downward)
    let estimatedTotalSize := totalRawSize + (500 + totalRawSize / 5)
    -- app.py 539-573: auto-summarize extremely large outputs
    let r :=
      if shouldAutoSummarize then
        let notice := sseFrame (systemMessagePayload
          ("Command output is very large (" ++ toString (totalRawSize / 1024 / 1024) ++
           "MB). Generating summary..."))
        match orc st.summaryCount with
        | none => ([notice], stdout, totalRawSize, estimatedTotalSize, st.summaryCount + 1)
        | some summaryText =>
          if summaryText = "" then
            ([notice], stdout, totalRawSize, estimatedTotalSize, st.summaryCount + 1)
          else
            let stdout' := annotateSummary totalRawSize summaryText
            let totalRaw' := pyUtf8Len stdout' + stderrSize
            ([notice, sseFrame (systemMessagePayload ("Summary generated successfully."))],
             stdout', totalRaw', totalRaw' + (500 + totalRaw' / 5), st.summaryCount + 1)
      else ([], stdout, totalRawSize, estimatedTotalSize, st.summaryCount)
    let sumFrames := r.1
    let stdout1 := r.2.1
    let totalRaw1 := r.2.2.1
    let est1 := r.2.2.2.1
    let st := { st with summaryCount := r.2.2.2.2 }
    let success := d.success.getD true
    let exitCode := d.exitCode.getD 0
    -- app.py 575-597
    if MAX_CHUNK_SIZE ≤ est1 ∨ MAX_CHUNK_SIZE - 1000 ≤ totalRaw1 then
      (sumFrames ++ forcedChunkFrames toolName finalCommand success exitCode stdout1 stderr totalRaw1, st)
    else
      let structured := structuredResultPayload toolName finalCommand success exitCode stdout1 stderr
      if emitOk structured then (sumFrames ++ [sseFrame structured], st)
      else
        (sumFrames ++ forcedChunkFrames toolName finalCommand success exitCode stdout1 stderr totalRaw1, st)

/-! ### The per-message dispatch and the snapshot loop (app.py 371-644) -/

/-- Processing of one message of a response snapshot.  The boolean is the
early-return flag of the 5 MiB assistant-content guard. -/
def processMessage (orc : Nat → Option String) (st : GenState) (idx : Nat) (msg : Msg) :
    List Frame × GenState × Bool :=
  match msg.role with
  | .assistant =>
    let contentStr := msg.content.getD ("")
    let r := processAssistantContent st idx contentStr
    if r.2.2 then r
    else
      -- app.py 439-477: tool-call streaming for new messages only
      if st.prevLen ≤ idx then
        match msg.functionCall with
        | some f =>
          let toolName := f.name.getD ("unknown_tool")
          let toolArgs := f.arguments.getD ("\x7b\x7d")
          let command := extractCommand toolName toolArgs f
          let st2 := if optTruthy command then
              { r.2.1 with queue := r.2.1.queue ++ [command.getD ("")] }
            else r.2.1
          -- written directly, bypassing `_emit` (app.py 472-477)
          (r.1 ++ [sseFrame (toolCallPayload toolName toolArgs command)], st2, false)
        | none => r
      else r
  | .tool | .function =>
    if st.prevLen ≤ idx then
      let r := processToolResult orc st msg
      (r.1, r.2, false)
    else ([], st, false)
  | _ => ([], st, false)

/-- `for idx, message in enumerate(response_chunk)` with the early return
propagated. -/
def processMsgsGo (orc : Nat → Option String) :
    GenState → Nat → List Msg → List Frame × GenState × Bool
  | st, _, [] => ([], st, false)
  | st, idx, m :: rest =>
    let r := processMessage orc st idx m
    if r.2.2 then r
    else
      let r2 := processMsgsGo orc r.2.1 (idx + 1) rest
      (r.1 ++ r2.1, r2.2.1, r2.2.2)

/-- Processing of one cumulative snapshot, followed by
`previous_response = response_chunk.copy()` (app.py 644; only the length is
ever read). -/
def processChunk (orc : Nat → Option String) (st : GenState) (msgs : List Msg) :
    List Frame × GenState × Bool :=
  let r := processMsgsGo orc st 0 msgs
  if r.2.2 then r
  else (r.1, { r.2.1 with prevLen := msgs.length }, false)

/-- The outer loop over the snapshots yielded by `assistant.run`. -/
def runChunks (orc : Nat → Option String) :
    GenState → List (List Msg) → List Frame × GenState × Bool
  | st, [] => ([], st, false)
  | st, chunk :: rest =>
    let r := processChunk orc st chunk
    if r.2.2 then r
    else
      let r2 := runChunks orc r.2.1 rest
      (r.1 ++ r2.1, r2.2.1, r2.2.2)

/-! ### The exception handler (app.py 649-722) -/

/-- Classification of the caught exception's message (app.py 654). -/
def isPayloadErrorMsg (m : String) : Bool :=
  substrIn ("Payload Too Large") m || substrIn ("413") m || substrIn ("too large") (pyLower m)

/-- The stdout replacement built in the exception handler (app.py 678-683);
note it differs from the in-loop annotation by the extra KB rendering. -/
def annotateSummaryExc (originalSize : Nat) (summaryText : String) : String :=
  "[Auto-summarized from " ++ toString originalSize ++ " bytes]\n\n" ++ summaryText ++
  "\n\n[Original output was " ++ toString originalSize ++ " bytes (" ++
  toString (originalSize / 1024) ++ " KB). Use a more specific command to see full details.]"

/-- The summarized recovery `tool_result` payload (app.py 684-694) — the only
place where `summary`/`originalSize` fields are attached. -/
def summarizedResultPayload (toolName command stdout : String) (originalSize : Nat) : Payload :=
  [("type", JVal.s ("tool_result")), ("name", JVal.s toolName),
   ("command", JVal.s command), ("success", JVal.b false), ("exitCode", JVal.i 0),
   ("stdout", JVal.s stdout), ("stderr", JVal.s ("")),
   ("summary", JVal.b true), ("originalSize", JVal.n originalSize)]

/-- The `except Exception` handler of `generate` (app.py 649-722), given the
exception's message and the state at the time of the fault.  Returns the
frames it writes and the state (whose `summaryCount` records whether the
summarizer was invoked). -/
def handleException (orc : Nat → Option String) (errorMsg : String) (st : GenState) :
    List Frame × GenState :=
  if isPayloadErrorMsg errorMsg then
    match st.lastToolCtx with
    | some ctx =>
      if 10 * 1024 < ctx.totalRawSize then
        let noticeFrames := emitFrames (systemMessagePayload
          ("Large command output detected. Generating summary and retrying..."))
        let toolNameS := if ctx.name = "" then "unknown" else ctx.name
        let cmdS := match ctx.command with
          | some c => if c = "" then "unknown" else c
          | none => "unknown"
        let st1 := { st with summaryCount := st.summaryCount + 1 }
        match orc st.summaryCount with
        | none =>
          -- summarizer raised; caught at app.py 706-711
          (noticeFrames ++ emitFrames sizeLimitErrorPayload, st1)
        | some summaryText =>
          if summaryText = "" then (noticeFrames ++ emitFrames sizeLimitErrorPayload, st1)
          else
            let p := summarizedResultPayload toolNameS cmdS
              (annotateSummaryExc ctx.totalRawSize summaryText) ctx.totalRawSize
            if sseSize p < MAX_CHUNK_SIZE then
              (noticeFrames ++ [sseFrame p] ++
               emitFrames [("type", JVal.s ("tool_result_complete")), ("name", JVal.s toolNameS)] ++
               emitFrames (systemMessagePayload
                 ("Summary generated and stored. You can continue with your next command.")),
               st1)
            else (noticeFrames ++ emitFrames sizeLimitErrorPayload, st1)
      else (emitFrames sizeLimitErrorPayload, st)
    | none => (emitFrames sizeLimitErrorPayload, st)
  else
    -- app.py 712-722: regular error, truncated to fit
    let maxErrorContent := MAX_CHUNK_SIZE - 200
    let truncatedError := if maxErrorContent < pyLen errorMsg then pyTake errorMsg maxErrorContent
      else errorMsg
    let p : Payload := [("type", JVal.s ("error")), ("content", JVal.s truncatedError)]
    if emitOk p then ([sseFrame p], st)
    else (emitFrames [("type", JVal.s ("error")), ("content", JVal.s ("An error occurred"))], st)

/-! ### The whole turn (app.py 354-725) -/

/-- One turn's inputs: the cumulative snapshots yielded by `assistant.run`,
an optional exception escaping the production loop afterwards (with its
message), the summarizer oracle, and the timestamp placed in the `done`
event. -/
structure Script where
  chunks : List (List Msg)
  runError : Option String
  summarizer : Nat → Option String
  doneTimestamp : String

/-- The state at the start of a turn (app.py 270, 363-367). -/
def initState : GenState :=
  { lastToolCtx := none, prevLen := 0, contentMap := fun _ => "", queue := [],
    summaryCount := 0 }

/-- The literal sentinel frame of app.py 724. -/
def doneSentinel : Frame := ('d' :: 'a' :: 't' :: 'a' :: ':' :: ' ' :: '[' :: 'D' :: 'O' :: 'N' :: 'E' :: ']' :: ['\n', '\n'])

/-- Everything written before the `finally` block: the loop's frames, then
either the `done` event (normal completion), nothing further (early return of
the 5 MiB guard), or the exception handler's frames. -/
def generateBody (s : Script) : List Frame :=
  let r := runChunks s.summarizer initState s.chunks
  if r.2.2 then r.1
  else
    match s.runError with
    | none => r.1 ++ emitFrames [("type", JVal.s ("done")), ("timestamp", JVal.s s.doneTimestamp)]
    | some msg => r.1 ++ (handleException s.summarizer msg r.2.1).1

/-- The complete byte stream of one turn: the body followed unconditionally
by the `data: [DONE]` sentinel written in the `finally` block. -/
def generateFrames (s : Script) : List Frame :=
  generateBody s ++ [doneSentinel]

/-- Substring containment on raw frames. -/
def substrInL (pat l : List Char) : Bool :=
  l.tails.any (fun t => pat.isPrefixOf t)

/-- The text carried by a chunk payload under the chunker's text key. -/
def chunkTextOf (textKey : String) (p : Payload) : List Char :=
  match lookupVal p textKey with
  | some (JVal.s s) => s.data
  | _ => []

/-- The index carried by a chunk payload under the chunker's index key. -/
def chunkIndexOf (indexKey : String) (p : Payload) : Nat :=
  match lookupVal p indexKey with
  | some (JVal.n n) => n
  | _ => 0

/-! ### Byte-size lemmas -/

lemma utf8Len_nil : utf8Len [] = 0 := rfl

lemma utf8Len_cons (c : Char) (l : List Char) :
    utf8Len (c :: l) = c.utf8Size + utf8Len l := by
  simp [utf8Len]

lemma utf8Len_append (a b : List Char) :
    utf8Len (a ++ b) = utf8Len a + utf8Len b := by
  simp [utf8Len]

lemma utf8Len_replicate (n : Nat) (c : Char) :
    utf8Len (List.replicate n c) = n * c.utf8Size := by
  induction n with
  | zero => simp [utf8Len]
  | succ k ih => rw [List.replicate_succ, utf8Len_cons, ih]; ring

/-- Characters whose JSON escaping is the identity keep their byte size; the
expanded escapes only grow a string.  We only need the identity case. -/
lemma flatten_map_esc_of_plain (l : List Char) (h : ∀ c ∈ l, jsonEscapeChar c = [c]) :
    (l.map jsonEscapeChar).flatten = l := by
  induction l with
  | nil => rfl
  | cons c rest ih =>
    simp only [List.map_cons, List.flatten_cons, h c (by simp)]
    simp only [List.cons_append, List.nil_append]
    rw [ih (fun x hx => h x (by simp [hx]))]

lemma jsonString_of_plain (s : String) (h : ∀ c ∈ s.data, jsonEscapeChar c = [c]) :
    jsonString s = '"' :: s.data ++ ['"'] := by
  rw [jsonString, flatten_map_esc_of_plain s.data h]

lemma mem_le_utf8Len_joinEntries (e : List Char) :
    ∀ L : List (List Char), e ∈ L → utf8Len e ≤ utf8Len (joinEntries L)
  | [], h => absurd h (by simp)
  | [x], h => by
    simp only [List.mem_singleton] at h
    subst h; exact le_rfl
  | x :: y :: rest, h => by
    have hj : joinEntries (x :: y :: rest) = x ++ [',', ' '] ++ joinEntries (y :: rest) := rfl
    rw [hj, utf8Len_append, utf8Len_append]
    rcases List.mem_cons.mp h with h1 | h2
    · rw [h1]; omega
    · have ihle := mem_le_utf8Len_joinEntries e (y :: rest) h2
      omega

/-- Every entry's serialization is a lower bound on the whole frame's size. -/
lemma entrySer_le_sseSize (x : String × JVal) (p : Payload) (hx : x ∈ p) :
    utf8Len (entrySer x) ≤ sseSize p := by
  have h1 : utf8Len (entrySer x) ≤ utf8Len (joinEntries (p.map entrySer)) :=
    mem_le_utf8Len_joinEntries _ _ (List.mem_map_of_mem entrySer hx)
  simp only [sseSize, sseFrame, jsonDumps, utf8Len_append, utf8Len_cons]
  omega

lemma emitOk_eq_false_of_le (p : Payload) (h : MAX_CHUNK_SIZE ≤ sseSize p) :
    emitOk p = false := by
  rw [emitOk, decide_eq_false_iff_not]
  omega

lemma emitFrames_of_le (p : Payload) (h : MAX_CHUNK_SIZE ≤ sseSize p) :
    emitFrames p = [] := by
  rw [emitFrames, emitOk_eq_false_of_le p h]
  simp

/-! ### dict lemmas -/

lemma find?_map_set (k : String) (v : JVal) :
    ∀ p : Payload, p.any (fun e => e.1 = k) = true →
      (p.map (fun e => if e.1 = k then (k, v) else e)).find? (fun e => e.1 = k) = some (k, v)
  | [], h => by simp at h
  | e :: rest, h => by
    by_cases he : e.1 = k
    · simp [List.find?_cons, he]
    · simp only [List.any_cons, Bool.or_eq_true, decide_eq_true_eq] at h
      rcases h with h1 | h2
      · exact absurd h1 he
      · simp only [List.map_cons, if_neg he]
        rw [List.find?_cons_of_neg _ (by simpa using he)]
        exact find?_map_set k v rest h2

lemma find?_map_set_other (k k' : String) (v : JVal) (h : k' ≠ k) :
    ∀ p : Payload,
      (p.map (fun e => if e.1 = k' then (k', v) else e)).find? (fun e => e.1 = k) =
        p.find? (fun e => e.1 = k)
  | [] => rfl
  | e :: rest => by
    by_cases he : e.1 = k'
    · have hek : ¬ (e.1 = k) := by rw [he]; exact h
      simp only [List.map_cons, if_pos he]
      rw [List.find?_cons_of_neg _ (by simpa using h),
          List.find?_cons_of_neg _ (by simpa using hek)]
      exact find?_map_set_other k k' v h rest
    · simp only [List.map_cons, if_neg he]
      by_cases hek : e.1 = k
      · rw [List.find?_cons_of_pos _ (by simpa using hek),
            List.find?_cons_of_pos _ (by simpa using hek)]
      · rw [List.find?_cons_of_neg _ (by simpa using hek),
            List.find?_cons_of_neg _ (by simpa using hek)]
        exact find?_map_set_other k k' v h rest

lemma find?_append_right (l l' : Payload) (f : String × JVal → Bool)
    (h : l.find? f = none) : (l ++ l').find? f = l'.find? f := by
  induction l with
  | nil => simp
  | cons e rest ih =>
    cases hf : f e with
    | true =>
      rw [List.find?_cons_of_pos _ hf] at h
      simp at h
    | false =>
      rw [List.find?_cons_of_neg _ (by simp [hf])] at h
      rw [List.cons_append, List.find?_cons_of_neg _ (by simp [hf])]
      exact ih h

lemma lookupVal_dictSet_self (p : Payload) (k : String) (v : JVal) :
    lookupVal (dictSet p k v) k = some v := by
  rw [dictSet]
  by_cases h : p.any (fun e => e.1 = k) = true
  · rw [if_pos h, lookupVal, find?_map_set k v p h]; rfl
  · rw [if_neg h, lookupVal]
    have hn : p.find? (fun e => e.1 = k) = none := by
      rw [List.find?_eq_none]
      intro x hx
      simp only [decide_eq_true_eq]
      intro hk
      exact h (List.any_eq_true.mpr ⟨x, hx, by simp [hk]⟩)
    rw [find?_append_right _ _ _ hn]
    simp [List.find?]

lemma find?_append_singleton_other (k k' : String) (v : JVal) (h : k' ≠ k) :
    ∀ p : Payload,
      (p ++ [(k', v)]).find? (fun e => e.1 = k) = p.find? (fun e => e.1 = k)
  | [] => by
    rw [List.nil_append, List.find?_cons_of_neg _ (by simpa using h)]
  | e :: rest => by
    rw [List.cons_append]
    by_cases hek : e.1 = k
    · rw [List.find?_cons_of_pos _ (by simpa using hek),
          List.find?_cons_of_pos _ (by simpa using hek)]
    · rw [List.find?_cons_of_neg _ (by simpa using hek),
          List.find?_cons_of_neg _ (by simpa using hek)]
      exact find?_append_singleton_other k k' v h rest

lemma lookupVal_dictSet_other (p : Payload) (k k' : String) (v : JVal) (h : k' ≠ k) :
    lookupVal (dictSet p k' v) k = lookupVal p k := by
  rw [dictSet]
  by_cases ha : p.any (fun e => e.1 = k') = true
  · rw [if_pos ha, lookupVal, lookupVal, find?_map_set_other k k' v h p]
  · rw [if_neg ha, lookupVal, lookupVal, find?_append_singleton_other k k' v h p]

/-- Entries under a different key survive a dict assignment. -/
lemma mem_dictSet_of_ne (p : Payload) (k : String) (v : JVal) (x : String × JVal)
    (hx : x ∈ p) (hne : x.1 ≠ k) : x ∈ dictSet p k v := by
  rw [dictSet]
  by_cases h : p.any (fun e => e.1 = k) = true
  · rw [if_pos h]
    have : x = (fun e => if e.1 = k then (k, v) else e) x := by simp [if_neg hne]
    rw [this]
    exact List.mem_map_of_mem _ hx
  · rw [if_neg h]
    exact List.mem_append_left _ hx

/-! ### Arithmetic facts about the 0.7 shrink -/

lemma roundQ_le (p s : Nat) : roundQ p s ≤ p / 2 ^ s + 1 := by
  rw [roundQ]; split <;> omega

lemma pyInt07_zero : pyInt07 0 = 0 := by
  simp [pyInt07, bitLen]

/-- Python's `int(c * 0.7)` is strictly below `c` for positive `c`: the
rounding of the product can never reach `c` because 0.7's distance below 1
dwarfs the rounding step. -/
lemma pyInt07_lt (c : Nat) (hc : 1 ≤ c) : pyInt07 c < c := by
  have hc0 : 0 < c := hc
  have hM : pointSevenM < 2 ^ 53 := by norm_num [pointSevenM]
  have hM0 : 0 < pointSevenM := by norm_num [pointSevenM]
  have hp : c * pointSevenM < c * 2 ^ 53 := by
    exact mul_lt_mul_of_pos_left hM hc0
  rw [pyInt07]
  by_cases hk : bitLen (c * pointSevenM) ≤ 53
  · rw [if_pos hk]
    rw [Nat.div_lt_iff_lt_mul (by positivity)]
    exact hp
  · rw [if_neg hk]
    have hpne : c * pointSevenM ≠ 0 := by positivity
    have hbit : bitLen (c * pointSevenM) = Nat.log 2 (c * pointSevenM) + 1 := by
      rw [bitLen, if_neg hpne]
    have hklt : 53 < Nat.log 2 (c * pointSevenM) + 1 := by omega
    have hlog : 2 ^ Nat.log 2 (c * pointSevenM) ≤ c * pointSevenM :=
      Nat.pow_log_le_self 2 hpne
    have hseq : bitLen (c * pointSevenM) - 53 + 52 = Nat.log 2 (c * pointSevenM) := by omega
    have hlow : 2 ^ (bitLen (c * pointSevenM) - 53 + 52) ≤ c * pointSevenM := by
      rw [hseq]; exact hlog
    have hΔ : pointSevenM < (2 ^ 53 - pointSevenM) * 2 ^ 52 := by norm_num [pointSevenM]
    have key3 : 2 ^ (bitLen (c * pointSevenM) - 53) < c * (2 ^ 53 - pointSevenM) := by
      by_contra hcon
      push_neg at hcon
      have h1 : c * ((2 ^ 53 - pointSevenM) * 2 ^ 52) ≤
          2 ^ (bitLen (c * pointSevenM) - 53) * 2 ^ 52 := by
        calc c * ((2 ^ 53 - pointSevenM) * 2 ^ 52)
            = c * (2 ^ 53 - pointSevenM) * 2 ^ 52 := by ring
        _ ≤ 2 ^ (bitLen (c * pointSevenM) - 53) * 2 ^ 52 := Nat.mul_le_mul_right _ hcon
      have h2 : 2 ^ (bitLen (c * pointSevenM) - 53) * 2 ^ 52 =
          2 ^ (bitLen (c * pointSevenM) - 53 + 52) := by rw [pow_add]
      have h3 : c * pointSevenM < c * ((2 ^ 53 - pointSevenM) * 2 ^ 52) :=
        mul_lt_mul_of_pos_left hΔ hc0
      omega
    have hq : roundQ (c * pointSevenM) (bitLen (c * pointSevenM) - 53) ≤
        c * pointSevenM / 2 ^ (bitLen (c * pointSevenM) - 53) + 1 := roundQ_le _ _
    have hqmul : (c * pointSevenM / 2 ^ (bitLen (c * pointSevenM) - 53)) *
        2 ^ (bitLen (c * pointSevenM) - 53) ≤ c * pointSevenM := Nat.div_mul_le_self _ _
    have key4 : roundQ (c * pointSevenM) (bitLen (c * pointSevenM) - 53) *
        2 ^ (bitLen (c * pointSevenM) - 53) < c * 2 ^ 53 := by
      have h1 : roundQ (c * pointSevenM) (bitLen (c * pointSevenM) - 53) *
          2 ^ (bitLen (c * pointSevenM) - 53) ≤
          (c * pointSevenM / 2 ^ (bitLen (c * pointSevenM) - 53) + 1) *
          2 ^ (bitLen (c * pointSevenM) - 53) := Nat.mul_le_mul_right _ hq
      have h2 : (c * pointSevenM / 2 ^ (bitLen (c * pointSevenM) - 53) + 1) *
          2 ^ (bitLen (c * pointSevenM) - 53) =
          (c * pointSevenM / 2 ^ (bitLen (c * pointSevenM) - 53)) *
          2 ^ (bitLen (c * pointSevenM) - 53) + 2 ^ (bitLen (c * pointSevenM) - 53) := by ring
      have h4 : c * pointSevenM + c * (2 ^ 53 - pointSevenM) = c * 2 ^ 53 := by
        rw [← Nat.mul_add, Nat.add_sub_cancel' (le_of_lt hM)]
      omega
    by_cases hs53 : 53 ≤ bitLen (c * pointSevenM) - 53
    · rw [if_pos hs53]
      by_contra hcon
      push_neg at hcon
      have h1 : c * 2 ^ 53 ≤ roundQ (c * pointSevenM) (bitLen (c * pointSevenM) - 53) *
          2 ^ (bitLen (c * pointSevenM) - 53 - 53) * 2 ^ 53 := Nat.mul_le_mul_right _ hcon
      have h2 : roundQ (c * pointSevenM) (bitLen (c * pointSevenM) - 53) *
          2 ^ (bitLen (c * pointSevenM) - 53 - 53) * 2 ^ 53 =
          roundQ (c * pointSevenM) (bitLen (c * pointSevenM) - 53) *
          2 ^ (bitLen (c * pointSevenM) - 53) := by
        rw [mul_assoc, ← pow_add]
        congr 2
        omega
      omega
    · rw [if_neg hs53]
      rw [Nat.div_lt_iff_lt_mul (by positivity)]
      by_contra hcon
      push_neg at hcon
      have h1 : c * 2 ^ (53 - (bitLen (c * pointSevenM) - 53)) *
          2 ^ (bitLen (c * pointSevenM) - 53) ≤
          roundQ (c * pointSevenM) (bitLen (c * pointSevenM) - 53) *
          2 ^ (bitLen (c * pointSevenM) - 53) := Nat.mul_le_mul_right _ hcon
      have h2 : c * 2 ^ (53 - (bitLen (c * pointSevenM) - 53)) *
          2 ^ (bitLen (c * pointSevenM) - 53) = c * 2 ^ 53 := by
        rw [mul_assoc, ← pow_add]
        congr 2
        omega
      omega

/-- The concrete shrink chain of the 30 KiB initial chunk size. -/
lemma pyInt07_30720 : pyInt07 30720 = 21504 := by
  have hlog : Nat.log 2 193690812773950279680 = 67 :=
    Nat.log_eq_of_pow_le_of_lt_pow (by norm_num) (by norm_num)
  have hp : (30720 : Nat) * pointSevenM = 193690812773950279680 := by norm_num [pointSevenM]
  rw [pyInt07, hp, bitLen]
  rw [if_neg (show ¬(193690812773950279680 : Nat) = 0 by norm_num)]
  rw [hlog]
  rw [if_neg (show ¬(67 + 1 ≤ 53) by norm_num)]
  rw [if_neg (show ¬(53 ≤ 67 + 1 - 53) by norm_num)]
  rw [roundQ]
  norm_num

lemma pyInt07_21504 : pyInt07 21504 = 15052 := by
  have hlog : Nat.log 2 135583568941765195776 = 66 :=
    Nat.log_eq_of_pow_le_of_lt_pow (by norm_num) (by norm_num)
  have hp : (21504 : Nat) * pointSevenM = 135583568941765195776 := by norm_num [pointSevenM]
  rw [pyInt07, hp, bitLen]
  rw [if_neg (show ¬(135583568941765195776 : Nat) = 0 by norm_num)]
  rw [hlog]
  rw [if_neg (show ¬(66 + 1 ≤ 53) by norm_num)]
  rw [if_neg (show ¬(53 ≤ 66 + 1 - 53) by norm_num)]
  rw [roundQ]
  norm_num

lemma pyInt07_15052 : pyInt07 15052 = 10536 := by
  have hlog : Nat.log 2 94903454227652982088 = 66 :=
    Nat.log_eq_of_pow_le_of_lt_pow (by norm_num) (by norm_num)
  have hp : (15052 : Nat) * pointSevenM = 94903454227652982088 := by norm_num [pointSevenM]
  rw [pyInt07, hp, bitLen]
  rw [if_neg (show ¬(94903454227652982088 : Nat) = 0 by norm_num)]
  rw [hlog]
  rw [if_neg (show ¬(66 + 1 ≤ 53) by norm_num)]
  rw [if_neg (show ¬(53 ≤ 66 + 1 - 53) by norm_num)]
  rw [roundQ]
  norm_num

lemma pyInt07_10536 : pyInt07 10536 = 7375 := by
  have hlog : Nat.log 2 66429895943565759984 = 65 :=
    Nat.log_eq_of_pow_le_of_lt_pow (by norm_num) (by norm_num)
  have hp : (10536 : Nat) * pointSevenM = 66429895943565759984 := by norm_num [pointSevenM]
  rw [pyInt07, hp, bitLen]
  rw [if_neg (show ¬(66429895943565759984 : Nat) = 0 by norm_num)]
  rw [hlog]
  rw [if_neg (show ¬(65 + 1 ≤ 53) by norm_num)]
  rw [if_neg (show ¬(53 ≤ 65 + 1 - 53) by norm_num)]
  rw [roundQ]
  norm_num

lemma pyInt07_7375 : pyInt07 7375 = 5162 := by
  have hlog : Nat.log 2 46499666152600368250 = 65 :=
    Nat.log_eq_of_pow_le_of_lt_pow (by norm_num) (by norm_num)
  have hp : (7375 : Nat) * pointSevenM = 46499666152600368250 := by norm_num [pointSevenM]
  rw [pyInt07, hp, bitLen]
  rw [if_neg (show ¬(46499666152600368250 : Nat) = 0 by norm_num)]
  rw [hlog]
  rw [if_neg (show ¬(65 + 1 ≤ 53) by norm_num)]
  rw [if_neg (show ¬(53 ≤ 65 + 1 - 53) by norm_num)]
  rw [roundQ]
  norm_num

lemma pyInt07_5162 : pyInt07 5162 = 3613 := by
  have hlog : Nat.log 2 32546613787081098428 = 64 :=
    Nat.log_eq_of_pow_le_of_lt_pow (by norm_num) (by norm_num)
  have hp : (5162 : Nat) * pointSevenM = 32546613787081098428 := by norm_num [pointSevenM]
  rw [pyInt07, hp, bitLen]
  rw [if_neg (show ¬(32546613787081098428 : Nat) = 0 by norm_num)]
  rw [hlog]
  rw [if_neg (show ¬(64 + 1 ≤ 53) by norm_num)]
  rw [if_neg (show ¬(53 ≤ 64 + 1 - 53) by norm_num)]
  rw [roundQ]
  norm_num

/-! ### Chunker lemmas -/

lemma chunkTextOf_chunkPayload (base : Payload) (tk ik : String) (chunk : List Char) (n : Nat)
    (hk : tk ≠ ik) :
    chunkTextOf tk (chunkPayload base tk ik chunk n) = chunk := by
  rw [chunkTextOf, chunkPayload, lookupVal_dictSet_other _ _ _ _ (Ne.symm hk),
    lookupVal_dictSet_self]

lemma chunkIndexOf_chunkPayload (base : Payload) (tk ik : String) (chunk : List Char) (n : Nat) :
    chunkIndexOf ik (chunkPayload base tk ik chunk n) = n := by
  rw [chunkIndexOf, chunkPayload, lookupVal_dictSet_self]

lemma drop_length_take (rest : List Char) (c : Nat) :
    rest.drop ((rest.take c).length) = rest.drop c := by
  rw [List.length_take]
  rcases le_total c rest.length with h | h
  · rw [min_eq_left h]
  · rw [min_eq_right h, List.drop_eq_nil_of_le h, List.drop_eq_nil_of_le le_rfl]

/-- Round-trip invariant of the chunker loop: a successful run's chunk texts
concatenate back to the remaining text, and the indices are consecutive. -/
lemma emitChunksGo_roundtrip (base : Payload) (tk ik : String) (hk : tk ≠ ik) :
    ∀ (fuel : Nat) (rest : List Char) (chunkSize chunkIndex : Nat) (ps : List Payload),
      emitChunksGo base tk ik fuel rest chunkSize chunkIndex = (true, ps) →
      (ps.map (chunkTextOf tk)).flatten = rest ∧
        ps.map (chunkIndexOf ik) = List.range' chunkIndex ps.length
  | 0, rest, c, ci, ps, h => by simp [emitChunksGo] at h
  | fuel + 1, rest, c, ci, ps, h => by
    rw [emitChunksGo] at h
    by_cases hr : rest = []
    · rw [if_pos hr] at h
      injection h with h1 h2
      subst hr
      rw [← h2]
      exact ⟨rfl, rfl⟩
    · rw [if_neg hr] at h
      by_cases he : emitOk (chunkPayload base tk ik (rest.take c) ci) = true
      · rw [if_pos he] at h
        injection h with h1 h2
        have hrec : emitChunksGo base tk ik fuel (rest.drop ((rest.take c).length)) c (ci + 1) =
            (true, (emitChunksGo base tk ik fuel (rest.drop ((rest.take c).length)) c (ci + 1)).2) := by
          rw [← h1]
        obtain ⟨ih1, ih2⟩ := emitChunksGo_roundtrip base tk ik hk fuel _ c (ci + 1) _ hrec
        subst h2
        constructor
        · rw [List.map_cons, List.flatten_cons, chunkTextOf_chunkPayload base tk ik _ _ hk, ih1,
            drop_length_take, List.take_append_drop]
        · rw [List.map_cons, chunkIndexOf_chunkPayload, ih2, List.length_cons,
            List.range'_succ ci _ 1]
      · rw [if_neg he] at h
        by_cases h5 : pyInt07 c < 5000
        · rw [if_pos h5] at h
          exact absurd (congrArg Prod.fst h) (by simp)
        · rw [if_neg h5] at h
          exact emitChunksGo_roundtrip base tk ik hk fuel rest (pyInt07 c) ci ps h

lemma emitOk_sizeLimitError : emitOk sizeLimitErrorPayload = true := by decide

/-- If the emitter rejects every chunk payload of this base (e.g. an
oversized base), the loop shrinks to the floor and ends with the single
error event and a failure result. -/
lemma emitChunksGo_allReject (base : Payload) (tk ik : String)
    (hrej : ∀ chunk n, emitOk (chunkPayload base tk ik chunk n) = false) (c : Nat) :
    ∀ (fuel : Nat) (rest : List Char) (ci : Nat), c < fuel → rest ≠ [] →
      emitChunksGo base tk ik fuel rest c ci = (false, [sizeLimitErrorPayload]) := by
  induction c using Nat.strong_induction_on with
  | _ c ih =>
    intro fuel rest ci hcf hrest
    obtain ⟨fuel', rfl⟩ : ∃ f', fuel = f' + 1 := ⟨fuel - 1, by omega⟩
    rw [emitChunksGo, if_neg hrest]
    simp only [hrej, Bool.false_eq_true, if_false]
    by_cases h5 : pyInt07 c < 5000
    · rw [if_pos h5, if_pos emitOk_sizeLimitError]
    · rw [if_neg h5]
      have hc1 : 1 ≤ c := by
        rcases Nat.eq_zero_or_pos c with h0 | h1
        · rw [h0, pyInt07_zero] at h5; omega
        · exact h1
      have hlt := pyInt07_lt c hc1
      exact ih (pyInt07 c) hlt fuel' rest ci (by omega) hrest

/-- On a rejection above the floor, the loop retries the same slice position
with the shrunken chunk size. -/
lemma emitChunksGo_shrink_step (base : Payload) (tk ik : String) (fuel : Nat)
    (rest : List Char) (c ci : Nat) (hrest : rest ≠ [])
    (hrej : emitOk (chunkPayload base tk ik (rest.take c) ci) = false)
    (h5 : 5000 ≤ pyInt07 c) :
    emitChunksGo base tk ik (fuel + 1) rest c ci =
      emitChunksGo base tk ik fuel rest (pyInt07 c) ci := by
  rw [emitChunksGo, if_neg hrest]
  simp only [hrej, Bool.false_eq_true, if_false]
  rw [if_neg (show ¬ pyInt07 c < 5000 by omega)]

/-! ### Claim C2: chunker round trip -/

/-- C2: Chunk round-trip.  Whenever `_emit_text_chunks` reports success, the
emitted chunk payloads carry indices 0, 1, 2, … with no gaps, and the chunk
texts concatenated in index order reproduce the input text exactly — nothing
is dropped or duplicated (so chunks are non-overlapping and contiguous). -/
theorem C2_chunk_round_trip (base : Payload) (textKey indexKey : String)
    (hk : textKey ≠ indexKey) (text : List Char) (initialChunkSize : Nat)
    (ps : List Payload)
    (h : emitTextChunks base textKey indexKey text initialChunkSize = (true, ps)) :
    (ps.map (chunkTextOf textKey)).flatten = text ∧
      ps.map (chunkIndexOf indexKey) = List.range ps.length := by
  obtain ⟨h1, h2⟩ := emitChunksGo_roundtrip base textKey indexKey hk _ text initialChunkSize 0 ps h
  exact ⟨h1, by rw [h2, List.range_eq_range']⟩

/-- Witness for C2 at a concrete input: chunking `"hello"` with the
assistant-content base succeeds in one chunk and reassembles exactly. -/
theorem C2_chunk_round_trip_witness :
    (([[("type", JVal.s ("content_chunk")), ("content", JVal.s ("hello")),
        ("chunk_index", JVal.n 0)]].map (chunkTextOf ("content"))).flatten = ("hello").data ∧
      [[("type", JVal.s ("content_chunk")), ("content", JVal.s ("hello")),
        ("chunk_index", JVal.n 0)]].map (chunkIndexOf ("chunk_index")) = List.range 1) :=
  C2_chunk_round_trip [("type", JVal.s ("content_chunk"))] ("content") ("chunk_index")
    (by decide) ("hello").data (15 * 1024) _ (by decide)

/-! ### Claim C3: prefix-delta property -/

/-- Concatenation of the emitted deltas. -/
def concatAll (l : List String) : String := String.mk (l.map String.data).flatten

/-- The per-index delta state machine of app.py 384-437 under the assumption
that every emission succeeds: an empty observation is skipped, an empty delta
leaves the map untouched, and when the delta is non-empty the guard of
app.py 411-417 is checked first — a cumulative content strictly above
MAX_ASSISTANT_CONTENT_SIZE emits the error event and returns at once
(abort flag true, no delta, rest unprocessed); otherwise the delta is
emitted and the map is updated to the full observed content.  Returns the
final map entry, the deltas in emission order, and the abort flag. -/
def runDeltas : String → List String → String × List String × Bool
  | prev, [] => (prev, [], false)
  | prev, cur :: rest =>
    if cur = "" then
      runDeltas prev rest
    else if deltaOf prev cur = "" then
      runDeltas prev rest
    else if MAX_ASSISTANT_CONTENT_SIZE < pyUtf8Len cur then
      (prev, [], true)
    else
      let r := runDeltas cur rest
      (r.1, deltaOf prev cur :: r.2.1, r.2.2)

lemma pyStartswith_append_drop (prev cur : String) (h : pyStartswith cur prev = true) :
    prev.data ++ cur.data.drop prev.data.length = cur.data :=
  List.prefix_iff_eq_append.mp (List.isPrefixOf_iff_prefix.mp h)

lemma deltaOf_append (prev cur : String) (_hcur : cur ≠ "")
    (hpre : pyStartswith cur prev = true) (hne : deltaOf prev cur ≠ "") :
    prev.data ++ (deltaOf prev cur).data = cur.data := by
  rw [deltaOf]
  by_cases h1 : prev = ""
  · rw [if_pos h1, h1]
    rfl
  · rw [if_neg h1]
    by_cases h2 : cur = prev
    · exfalso
      apply hne
      rw [deltaOf, if_neg h1, if_pos h2]
    · rw [if_neg h2, if_pos hpre]
      exact pyStartswith_append_drop prev cur hpre

/-- If the delta is empty although the observation is a prefix-extension,
nothing changed: the observation equals the stored content. -/
lemma deltaOf_empty_eq (prev cur : String) (hcur : cur ≠ "")
    (hpre : pyStartswith cur prev = true) (hd : deltaOf prev cur = "") :
    cur = prev := by
  rw [deltaOf] at hd
  by_cases h1 : prev = ""
  · rw [if_pos h1] at hd
    exact absurd hd hcur
  · rw [if_neg h1] at hd
    by_cases h2 : cur = prev
    · exact h2
    · rw [if_neg h2, if_pos hpre] at hd
      have hp : prev.data <+: cur.data := List.isPrefixOf_iff_prefix.mp hpre
      have hlen : cur.data.length ≤ prev.data.length := by
        have : (cur.data.drop prev.data.length) = [] := by
          have := congrArg String.data hd
          simpa [pySliceFrom, pyLen] using this
        have := congrArg List.length this
        simp only [List.length_drop, List.length_nil] at this
        omega
      have : prev.data = cur.data :=
        List.IsPrefix.eq_of_length hp (le_antisymm hp.length_le hlen)
      exact absurd (String.ext this.symm) h2

lemma runDeltas_concat (obs : List String) : ∀ prev : String,
    (∀ c ∈ obs, ¬ MAX_ASSISTANT_CONTENT_SIZE < pyUtf8Len c) →
    (∀ c, obs.head? = some c → pyStartswith c prev = true) →
    obs.Chain' (fun a b => pyStartswith b a = true) →
    prev.data ++ ((runDeltas prev obs).2.1.map String.data).flatten = (obs.getLastD prev).data := by
  induction obs with
  | nil => intro prev _ _ _; simp [runDeltas]
  | cons cur rest ih =>
    intro prev hcap hhead hchain
    have hpre : pyStartswith cur prev = true := hhead cur rfl
    have hcap' : ∀ c ∈ rest, ¬ MAX_ASSISTANT_CONTENT_SIZE < pyUtf8Len c :=
      fun c hc => hcap c (List.mem_cons_of_mem _ hc)
    have hchain' : rest.Chain' (fun a b => pyStartswith b a = true) :=
      (List.chain'_cons'.mp hchain).2
    have hnext : ∀ c, rest.head? = some c → pyStartswith c cur = true :=
      fun c hc => (List.chain'_cons'.mp hchain).1 c hc
    rw [List.getLastD_cons]
    by_cases hcur : cur = ""
    · have hprev : prev = "" := by
        have : prev.data <+: cur.data := List.isPrefixOf_iff_prefix.mp hpre
        rw [hcur] at this
        have := List.prefix_nil.mp this
        exact String.ext this
      rw [runDeltas, if_pos hcur]
      have hnext' : ∀ c, rest.head? = some c → pyStartswith c prev = true := by
        intro c hc
        rw [hprev, ← hcur]
        exact hnext c hc
      have := ih prev hcap' hnext' hchain'
      calc prev.data ++ ((runDeltas prev rest).2.1.map String.data).flatten
          = (rest.getLastD prev).data := this
      _ = (rest.getLastD cur).data := by rw [hprev, hcur]
    · rw [runDeltas, if_neg hcur]
      by_cases hd : deltaOf prev cur = ""
      · rw [if_pos hd]
        have hcp : cur = prev := deltaOf_empty_eq prev cur hcur hpre hd
        have hnext' : ∀ c, rest.head? = some c → pyStartswith c prev = true := by
          intro c hc
          rw [← hcp]
          exact hnext c hc
        have := ih prev hcap' hnext' hchain'
        calc prev.data ++ ((runDeltas prev rest).2.1.map String.data).flatten
            = (rest.getLastD prev).data := this
        _ = (rest.getLastD cur).data := by rw [hcp]
      · rw [if_neg hd, if_neg (hcap cur (List.mem_cons_self cur rest))]
        have := ih cur hcap' hnext hchain'
        have happ := deltaOf_append prev cur hcur hpre hd
        simp only [List.map_cons, List.flatten_cons]
        rw [← List.append_assoc, happ]
        exact this

/-- C3 (amended): Prefix-delta property under the content cap.  For every
sequence of observations of the same assistant message in which each
observation's content is a prefix-extension of the previous one, every
observation stays within the MAX_ASSISTANT_CONTENT_SIZE cap of
app.py 411-417, and every emission succeeds (the success-path state update
of app.py 420-437), the concatenation of all emitted content deltas equals
the final observed content exactly.  An observation above the cap instead
aborts the turn with no delta (see the counterexample). -/
theorem C3_prefix_delta (obs : List String) (hne : obs ≠ [])
    (hcap : ∀ c ∈ obs, ¬ MAX_ASSISTANT_CONTENT_SIZE < pyUtf8Len c)
    (hchain : obs.Chain' (fun a b => pyStartswith b a = true)) :
    concatAll (runDeltas ("") obs).2.1 = obs.getLast hne := by
  have h := runDeltas_concat obs ("") hcap (fun c _ => by
    rw [pyStartswith]
    simp) hchain
  have hlast : obs.getLastD ("") = obs.getLast hne := List.getLastD_eq_getLast? .. ▸ by
    rw [List.getLast?_eq_getLast obs hne]
    rfl
  apply String.ext
  rw [concatAll]
  have : ("" : String).data = [] := rfl
  rw [this, List.nil_append] at h
  rw [h, hlast]

/-- Witness for C3 at a concrete chain of observations within the cap. -/
theorem C3_prefix_delta_witness :
    concatAll (runDeltas ("") [("He"), ("Hell"), ("Hello")]).2.1 =
      [("He"), ("Hell"), ("Hello")].getLast (by decide) :=
  C3_prefix_delta [("He"), ("Hell"), ("Hello")] (by decide) (by decide)
    (by
      rw [List.chain'_cons, List.chain'_cons]
      exact ⟨by decide, by decide, List.chain'_singleton _⟩)

/-! ### Claim C4: terminal sentinel -/

/-- C4: Terminal sentinel.  On every code path of a turn — normal
completion, the early return of the 5 MiB guard, or any exception escaping
the production loop (with any behaviour of the handler and the summarizer) —
the last frame written is the literal `data: [DONE]\n\n` of the `finally`
block. -/
theorem C4_terminal_sentinel (s : Script) :
    (generateFrames s).getLast? = some doneSentinel := by
  rw [generateFrames]
  exact List.getLast?_concat _

/-! ### Claim C8: differ idempotence -/

lemma processAssistantContent_unchanged (st : GenState) (idx : Nat) (contentStr : String)
    (hmap : contentStr ≠ "" → st.contentMap idx = contentStr) :
    processAssistantContent st idx contentStr = ([], st, false) := by
  rw [processAssistantContent]
  by_cases hc : contentStr = ""
  · rw [if_pos hc]
  · rw [if_neg hc]
    have hprev : st.contentMap idx = contentStr := hmap hc
    have hdelta : deltaOf (st.contentMap idx) contentStr = "" := by
      rw [deltaOf, hprev]
      rw [if_neg hc, if_pos rfl]
    simp only [hdelta]
    simp

lemma processMessage_idempotent (orc : Nat → Option String) (st : GenState) (idx : Nat)
    (msg : Msg) (hidx : idx < st.prevLen)
    (hmap : msg.role = Role.assistant → msg.content.getD ("") ≠ "" →
      st.contentMap idx = msg.content.getD ("")) :
    processMessage orc st idx msg = ([], st, false) := by
  cases hmr : msg.role with
  | assistant =>
    simp only [processMessage, hmr]
    rw [processAssistantContent_unchanged st idx _ (hmap hmr)]
    simp [show ¬ st.prevLen ≤ idx from by omega]
  | tool =>
    simp only [processMessage, hmr]
    simp [show ¬ st.prevLen ≤ idx from by omega]
  | function =>
    simp only [processMessage, hmr]
    simp [show ¬ st.prevLen ≤ idx from by omega]
  | user => simp only [processMessage, hmr]
  | system => simp only [processMessage, hmr]

lemma processMsgsGo_idempotent (orc : Nat → Option String) (st : GenState) :
    ∀ (msgs : List Msg) (start : Nat), start + msgs.length ≤ st.prevLen →
      (∀ i m, msgs.get? i = some m → m.role = Role.assistant →
        m.content.getD ("") ≠ "" → st.contentMap (start + i) = m.content.getD ("")) →
      processMsgsGo orc st start msgs = ([], st, false)
  | [], start, _, _ => rfl
  | m :: rest, start, hlen, hmap => by
    rw [processMsgsGo]
    have hlen' : start < st.prevLen := by
      simp only [List.length_cons] at hlen
      omega
    have h0 := processMessage_idempotent orc st start m hlen'
      (fun hr hc => by simpa using hmap 0 m rfl hr hc)
    rw [h0]
    have hrec := processMsgsGo_idempotent orc st rest (start + 1)
      (by simp only [List.length_cons] at hlen; omega)
      (fun i mm hi hr hc => by
        have := hmap (i + 1) mm (by simpa using hi) hr hc
        rw [show start + 1 + i = start + (i + 1) by omega]
        exact this)
    simp only [hrec]
    simp

/-- C8: Differ idempotence.  Re-processing the same cumulative snapshot with
unchanged diff state (`previous_response` of the same length and the same
per-index assistant content map) writes zero wire frames and leaves the
whole state unchanged — no content delta, no `tool_call`, no `tool_result`
is re-emitted. -/
theorem C8_differ_idempotent (orc : Nat → Option String) (st : GenState) (msgs : List Msg)
    (hprev : st.prevLen = msgs.length)
    (hmap : ∀ i m, msgs.get? i = some m → m.role = Role.assistant →
      m.content.getD ("") ≠ "" → st.contentMap i = m.content.getD ("")) :
    processChunk orc st msgs = ([], st, false) := by
  rw [processChunk]
  rw [processMsgsGo_idempotent orc st msgs 0 (by omega)
    (fun i m h1 h2 h3 => by rw [Nat.zero_add]; exact hmap i m h1 h2 h3)]
  simp only
  rw [← hprev]
  rfl

/-- Witness for C8 at a concrete state and snapshot. -/
theorem C8_differ_idempotent_witness :
    processChunk (fun _ => none)
      { lastToolCtx := none, prevLen := 1,
        contentMap := fun j => if j = 0 then ("hi") else (""), queue := [], summaryCount := 0 }
      [{ role := Role.assistant, content := some ("hi"), functionCall := none,
         name := none, toolParse := ToolParse.malformed }] =
      ([], { lastToolCtx := none, prevLen := 1,
             contentMap := fun j => if j = 0 then ("hi") else (""), queue := [],
             summaryCount := 0 }, false) :=
  C8_differ_idempotent _ _ _ rfl
    (by
      intro i m h1 h2 h3
      match i, h1 with
      | 0, h1 =>
        injection h1 with h1
        rw [← h1] at h3 ⊢
        rfl)

/-! ### Claim C7: FIFO command/result correlation -/

/-- C7: Command/result correlation.  For every newly observed tool result
(processed on the small, direct-emit path), the command attached to the
emitted `tool_result` event is the result record's own embedded command if
that is a non-empty string, else the oldest entry of the FIFO pending-command
queue (`none` when the queue is empty, without error); the result consumes
exactly the oldest queue entry (`queue.tail`), so results arriving in
issuance order are matched to the commands issued in the same positions. -/
theorem C7_fifo_correlation (orc : Nat → Option String) (st : GenState) (idx : Nat)
    (msg : Msg) (d : ToolDict)
    (hrole : msg.role = Role.tool ∨ msg.role = Role.function)
    (hparse : msg.toolParse = ToolParse.parsed d)
    (hnew : st.prevLen ≤ idx)
    (hsmall : ¬ (AUTO_SUMMARY_THRESHOLD < pyUtf8Len d.output + pyUtf8Len d.error))
    (hest : ¬ (MAX_CHUNK_SIZE ≤ pyUtf8Len d.output + pyUtf8Len d.error +
        (500 + (pyUtf8Len d.output + pyUtf8Len d.error) / 5) ∨
      MAX_CHUNK_SIZE - 1000 ≤ pyUtf8Len d.output + pyUtf8Len d.error))
    (hfits : emitOk (structuredResultPayload (msg.name.getD ("unknown_tool"))
        (pyOrStr d.command st.queue.head?) (d.success.getD true) (d.exitCode.getD 0)
        d.output d.error) = true) :
    processMessage orc st idx msg =
      ([sseFrame (structuredResultPayload (msg.name.getD ("unknown_tool"))
          (pyOrStr d.command st.queue.head?) (d.success.getD true) (d.exitCode.getD 0)
          d.output d.error)],
        { st with queue := st.queue.tail,
                  lastToolCtx := some { name := msg.name.getD ("unknown_tool"),
                                        command := pyOrStr d.command st.queue.head?,
                                        totalRawSize := pyUtf8Len d.output + pyUtf8Len d.error,
                                        stdoutHead := pyTake d.output 10000,
                                        stderrHead := pyTake d.error 2000 } },
        false) := by
  have hbody : processToolResult orc st msg =
      ([sseFrame (structuredResultPayload (msg.name.getD ("unknown_tool"))
          (pyOrStr d.command st.queue.head?) (d.success.getD true) (d.exitCode.getD 0)
          d.output d.error)],
        { st with queue := st.queue.tail,
                  lastToolCtx := some { name := msg.name.getD ("unknown_tool"),
                                        command := pyOrStr d.command st.queue.head?,
                                        totalRawSize := pyUtf8Len d.output + pyUtf8Len d.error,
                                        stdoutHead := pyTake d.output 10000,
                                        stderrHead := pyTake d.error 2000 } }) := by
    simp only [processToolResult, hparse]
    rw [if_neg hsmall]
    simp only
    rw [if_neg hest, if_pos hfits]
    simp
  rcases hrole with hmr | hmr
  · simp only [processMessage, hmr]
    rw [if_pos hnew, hbody]
  · simp only [processMessage, hmr]
    rw [if_pos hnew, hbody]

/-- Witness for C7 at a concrete queue and result. -/
theorem C7_fifo_correlation_witness :
    processMessage (fun _ => none)
      { lastToolCtx := none, prevLen := 0, contentMap := fun _ => (""), queue := [("ls")],
        summaryCount := 0 } 0
      { role := Role.tool, content := some ("x"), functionCall := none,
        name := some ("exec"),
        toolParse := ToolParse.parsed
          { command := none, output := ("out"), error := (""), success := some true,
            exitCode := some 0 } } =
      ([sseFrame (structuredResultPayload ("exec") (some ("ls")) true 0 ("out") (""))],
        { lastToolCtx := some { name := ("exec"), command := some ("ls"), totalRawSize := 3,
                                stdoutHead := ("out"), stderrHead := ("") },
          prevLen := 0, contentMap := fun _ => (""), queue := [], summaryCount := 0 },
        false) := by
  have h := C7_fifo_correlation (fun _ => none)
    { lastToolCtx := none, prevLen := 0, contentMap := fun _ => (""), queue := [("ls")],
      summaryCount := 0 } 0
    { role := Role.tool, content := some ("x"), functionCall := none,
      name := some ("exec"),
      toolParse := ToolParse.parsed
        { command := none, output := ("out"), error := (""), success := some true,
          exitCode := some 0 } }
    { command := none, output := ("out"), error := (""), success := some true,
      exitCode := some 0 }
    (Or.inl rfl) rfl (by decide) (by decide) (by decide) (by decide)
  exact h


/-! ### Claim C9: exception-time recovery -/

/-- On a non-payload-classified exception the handler only writes the
truncated error event and never touches the summarizer (the whole state,
including the invocation counter, is returned unchanged). -/
lemma handleException_nonpayload (orc : Nat → Option String) (st : GenState) (msg : String)
    (h : isPayloadErrorMsg msg = false)
    (hfits : emitOk [("type", JVal.s ("error")),
        ("content", JVal.s (if MAX_CHUNK_SIZE - 200 < pyLen msg
          then pyTake msg (MAX_CHUNK_SIZE - 200) else msg))] = true) :
    handleException orc msg st =
      ([sseFrame [("type", JVal.s ("error")),
        ("content", JVal.s (if MAX_CHUNK_SIZE - 200 < pyLen msg
          then pyTake msg (MAX_CHUNK_SIZE - 200) else msg))]], st) := by
  rw [handleException, if_neg (by simp [h])]
  simp only
  rw [if_pos hfits]

set_option maxHeartbeats 2000000 in
/-- On a payload-classified exception with a big last-tool context the
handler makes exactly one summarizer invocation. -/
lemma handleException_payload_attempt (orc : Nat → Option String) (st : GenState)
    (msg : String) (ctx : ToolCtx)
    (h : isPayloadErrorMsg msg = true) (hctx : st.lastToolCtx = some ctx)
    (hbig : 10 * 1024 < ctx.totalRawSize) :
    (handleException orc msg st).2.summaryCount = st.summaryCount + 1 := by
  rw [handleException, if_pos h, hctx]
  simp only
  rw [if_pos hbig]
  rcases horc : orc st.summaryCount with _ | s
  · simp only [horc]
  · simp only [horc]
    by_cases hs : s = ""
    · rw [if_pos hs]
    · rw [if_neg hs]
      by_cases hsz : sseSize
          (summarizedResultPayload (if ctx.name = "" then ("unknown") else ctx.name)
            (match ctx.command with
              | some c => if c = "" then ("unknown") else c
              | none => ("unknown"))
            (annotateSummaryExc ctx.totalRawSize s) ctx.totalRawSize) < MAX_CHUNK_SIZE
      · rw [if_pos hsz]
      · rw [if_neg hsz]

/-- C9 (amended): recovery is conditional, not universal.  (a) For an
exception whose message matches none of the payload-size patterns
('Payload Too Large', '413', 'too large'), the handler emits a single
truncated error event and makes no summarization attempt — the state,
including the summarizer invocation counter, is unchanged; (b) one
summarization recovery attempt is made only when the message matches a
payload-size pattern and the last-tool context holds more than 10 KiB. -/
theorem C9_amended (orc orc2 : Nat → Option String) (st st2 : GenState)
    (msg msg2 : String) (ctx : ToolCtx)
    (h1 : isPayloadErrorMsg msg = false)
    (hfits : emitOk [("type", JVal.s ("error")),
        ("content", JVal.s (if MAX_CHUNK_SIZE - 200 < pyLen msg
          then pyTake msg (MAX_CHUNK_SIZE - 200) else msg))] = true)
    (h2 : isPayloadErrorMsg msg2 = true) (hctx : st2.lastToolCtx = some ctx)
    (hbig : 10 * 1024 < ctx.totalRawSize) :
    (handleException orc msg st =
      ([sseFrame [("type", JVal.s ("error")),
        ("content", JVal.s (if MAX_CHUNK_SIZE - 200 < pyLen msg
          then pyTake msg (MAX_CHUNK_SIZE - 200) else msg))]], st)) ∧
    (handleException orc2 msg2 st2).2.summaryCount = st2.summaryCount + 1 :=
  ⟨handleException_nonpayload orc st msg h1 hfits,
   handleException_payload_attempt orc2 st2 msg2 ctx h2 hctx hbig⟩

/-- A concrete state with a large last-tool context, used to exercise the
exception handler. -/
def c9State : GenState :=
  { lastToolCtx := some { name := ("cat"), command := some ("cat x"),
                          totalRawSize := 100000, stdoutHead := ("h"), stderrHead := ("") },
    prevLen := 0, contentMap := fun _ => (""), queue := [], summaryCount := 0 }

/-- Witness for C9 at concrete faults: a generic `"boom"` exception gets only
the plain error event, while a `"Payload Too Large"` exception over a 100 KB
last-tool context triggers exactly one summarizer invocation. -/
theorem C9_amended_witness :
    (handleException (fun _ => some ("SUMMARY")) ("boom") c9State =
      ([sseFrame [("type", JVal.s ("error")),
        ("content", JVal.s (if MAX_CHUNK_SIZE - 200 < pyLen ("boom")
          then pyTake ("boom") (MAX_CHUNK_SIZE - 200) else ("boom")))]], c9State)) ∧
    (handleException (fun _ => some ("SUMMARY")) ("Payload Too Large")
        c9State).2.summaryCount = c9State.summaryCount + 1 :=
  C9_amended (fun _ => some ("SUMMARY")) (fun _ => some ("SUMMARY")) c9State c9State
    ("boom") ("Payload Too Large")
    { name := ("cat"), command := some ("cat x"), totalRawSize := 100000,
      stdoutHead := ("h"), stderrHead := ("") }
    (by decide) (by decide) (by decide) rfl (by decide)

/-- Counterexample to C9 as stated: an unhandled exception `"boom"` (a
catastrophic stream fault matching no payload-size pattern) with a large
last-tool context available and a working summarizer still gets no
summarization recovery attempt — the handler writes one plain error event
and leaves the summarizer invocation counter at zero. -/
theorem C9_counterexample :
    handleException (fun _ => some ("SUMMARY")) ("boom") c9State =
      ([sseFrame [("type", JVal.s ("error")), ("content", JVal.s ("boom"))]], c9State) := by
  have h := handleException_nonpayload (fun _ => some ("SUMMARY")) c9State ("boom")
    (by decide) (by decide)
  rw [show (if MAX_CHUNK_SIZE - 200 < pyLen ("boom")
      then pyTake ("boom") (MAX_CHUNK_SIZE - 200) else ("boom")) = ("boom") from by decide] at h
  exact h

/-! ### Oversized-string size facts -/

lemma utf8Len_jsonString_replicate (n : Nat) (c : Char) (hesc : jsonEscapeChar c = [c])
    (hsz : c.utf8Size = 1) :
    utf8Len (jsonString (String.mk (List.replicate n c))) = n + 2 := by
  rw [jsonString_of_plain _ (fun x hx => by
    rw [List.eq_of_mem_replicate (show x ∈ List.replicate n c from hx)]
    exact hesc)]
  rw [utf8Len_append, utf8Len_cons]
  rw [show (String.mk (List.replicate n c)).data = List.replicate n c from rfl]
  rw [utf8Len_replicate, hsz]
  have hq : ('"').utf8Size = 1 := by decide
  rw [hq]
  have hq2 : utf8Len ['"'] = 1 := by decide
  rw [hq2]
  omega

/-- A payload holding a replicated one-byte string of at least the ceiling's
length under some key is always rejected by `_emit`. -/
lemma emitOk_eq_false_of_mem_big (p : Payload) (k : String) (n : Nat) (c : Char)
    (hmem : (k, JVal.s (String.mk (List.replicate n c))) ∈ p)
    (hesc : jsonEscapeChar c = [c]) (hsz : c.utf8Size = 1)
    (hbig : MAX_CHUNK_SIZE ≤ n) : emitOk p = false := by
  apply emitOk_eq_false_of_le
  have h1 := entrySer_le_sseSize _ p hmem
  have hser : entrySer (k, JVal.s (String.mk (List.replicate n c))) =
      jsonString k ++ [':', ' '] ++ jsonString (String.mk (List.replicate n c)) := rfl
  rw [hser, utf8Len_append, utf8Len_append,
    utf8Len_jsonString_replicate n c hesc hsz] at h1
  omega

/-- Propagation of an early return at the head of the first snapshot. -/
lemma runChunks_abort_head (orc : Nat → Option String) (st : GenState) (m : Msg)
    (rest : List Msg) (more : List (List Msg)) (f : List Frame) (st' : GenState)
    (h : processMessage orc st 0 m = (f, st', true)) :
    runChunks orc st ((m :: rest) :: more) = (f, st', true) := by
  have h1 : processMsgsGo orc st 0 (m :: rest) = (f, st', true) := by
    rw [processMsgsGo]
    simp only [h, if_true]
  have h2 : processChunk orc st (m :: rest) = (f, st', true) := by
    simp only [processChunk, h1, if_true]
  rw [runChunks]
  simp only [h2, if_true]

/-! ### Claim C10: implicit 5 MiB assistant-content cap -/

lemma eq_of_prefix_drop_empty (prev cur : String) (hpre : pyStartswith cur prev = true)
    (hd : pySliceFrom cur (pyLen prev) = "") : cur = prev := by
  have hp : prev.data <+: cur.data := List.isPrefixOf_iff_prefix.mp hpre
  have hlen : cur.data.length ≤ prev.data.length := by
    have h0 : cur.data.drop prev.data.length = [] := by
      have := congrArg String.data hd
      simpa [pySliceFrom, pyLen] using this
    have := congrArg List.length h0
    simp only [List.length_drop, List.length_nil] at this
    omega
  have : prev.data = cur.data :=
    List.IsPrefix.eq_of_length hp (le_antisymm hp.length_le hlen)
  exact String.ext this.symm

lemma deltaOf_ne_empty (prev cur : String) (hc : cur ≠ "") (hne : prev ≠ cur) :
    deltaOf prev cur ≠ "" := by
  rw [deltaOf]
  by_cases h1 : prev = ""
  · rw [if_pos h1]; exact hc
  · rw [if_neg h1]
    by_cases h2 : cur = prev
    · exact absurd h2.symm hne
    · rw [if_neg h2]
      by_cases h3 : pyStartswith cur prev = true
      · rw [if_pos h3]
        intro hd
        exact h2 (eq_of_prefix_drop_empty prev cur h3 hd)
      · rw [if_neg h3]; exact hc

/-- C10: Implicit assistant-content cap.  Whenever an assistant message's
cumulative observed content exceeds 5 MiB in UTF-8 bytes (and differs from
the stored map entry, which always holds when the cap is first crossed), the
loop emits the single `'Assistant response too long…'` error event and
returns from the generator — it does not chunk the content — and an aborted
run is followed by nothing but the `[DONE]` sentinel.  The spec states no
such limit. -/
theorem C10_assistant_content_cap (orc : Nat → Option String) (st : GenState) (idx : Nat)
    (msg : Msg) (c : String)
    (hrole : msg.role = Role.assistant)
    (hcontent : msg.content = some c)
    (hsize : MAX_ASSISTANT_CONTENT_SIZE < pyUtf8Len c)
    (hchanged : st.contentMap idx ≠ c) :
    processMessage orc st idx msg = ([sseFrame tooLongErrorPayload], st, true) ∧
    ∀ s : Script, (runChunks s.summarizer initState s.chunks).2.2 = true →
      generateFrames s = (runChunks s.summarizer initState s.chunks).1 ++ [doneSentinel] := by
  constructor
  · have hc : c ≠ "" := by
      intro h
      rw [h] at hsize
      exact absurd hsize (by decide)
    have hbody : processAssistantContent st idx c = ([sseFrame tooLongErrorPayload], st, true) := by
      rw [processAssistantContent, if_neg hc]
      simp only
      rw [if_neg (deltaOf_ne_empty (st.contentMap idx) c hc hchanged), if_pos hsize]
      rw [emitFrames, if_pos (by decide)]
    simp only [processMessage, hrole, hcontent, Option.getD_some, hbody, if_true]
  · intro s habort
    rw [generateFrames, generateBody]
    simp only [habort, if_true]

/-- A 5 MiB + 1 byte assistant content. -/
def bigContent : String := String.mk (List.replicate (5 * 1024 * 1024 + 1) 'a')

def c10Msg : Msg :=
  { role := Role.assistant, content := some bigContent, functionCall := none,
    name := none, toolParse := ToolParse.malformed }

def c10Script : Script :=
  { chunks := [[c10Msg]], runError := none, summarizer := fun _ => none,
    doneTimestamp := ("T") }

lemma bigContent_utf8 : pyUtf8Len bigContent = 5 * 1024 * 1024 + 1 := by
  rw [pyUtf8Len, bigContent]
  rw [show (String.mk (List.replicate (5 * 1024 * 1024 + 1) 'a')).data =
    List.replicate (5 * 1024 * 1024 + 1) 'a' from rfl]
  rw [utf8Len_replicate, show ('a').utf8Size = 1 from by decide]

lemma bigContent_ne_empty : ("" : String) ≠ bigContent := by
  intro h
  have hlen := congrArg pyLen h
  rw [show pyLen ("") = 0 from rfl, pyLen, bigContent] at hlen
  rw [show (String.mk (List.replicate (5 * 1024 * 1024 + 1) 'a')).data =
    List.replicate (5 * 1024 * 1024 + 1) 'a' from rfl] at hlen
  rw [List.length_replicate] at hlen
  exact absurd hlen (by norm_num)

/-- Witness for C10: a 5 MiB + 1 content aborts the turn with one error
event, and the aborted stream ends right at the sentinel. -/
theorem C10_assistant_content_cap_witness :
    processMessage (fun _ => none) initState 0 c10Msg =
      ([sseFrame tooLongErrorPayload], initState, true) ∧
    generateFrames c10Script =
      (runChunks c10Script.summarizer initState c10Script.chunks).1 ++ [doneSentinel] := by
  have h := C10_assistant_content_cap (fun _ => none) initState 0 c10Msg bigContent
    rfl rfl (by rw [bigContent_utf8]; norm_num [MAX_ASSISTANT_CONTENT_SIZE])
    bigContent_ne_empty
  refine ⟨h.1, h.2 c10Script ?_⟩
  have hs : c10Script.summarizer = (fun _ => none) := rfl
  have hc : c10Script.chunks = [[c10Msg]] := rfl
  rw [hs, hc, runChunks_abort_head (fun _ => none) initState c10Msg [] [] _ _ h.1]

/-- Counterexample to C3 as stated: a single observation one byte above the
5 MiB cap is a valid prefix-extension chain, but the guard of app.py 411-417
fires before any emission — the turn aborts with the error event and no
content delta is ever emitted, so the concatenation of emitted deltas is
empty and differs from the final observed content. -/
theorem C3_counterexample :
    List.Chain' (fun a b => pyStartswith b a = true) [bigContent] ∧
    runDeltas ("") [bigContent] = (("") , [], true) ∧
    concatAll (runDeltas ("") [bigContent]).2.1 ≠
      [bigContent].getLast (by simp) := by
  have hne : ¬ bigContent = "" := fun h => bigContent_ne_empty h.symm
  have hbig : MAX_ASSISTANT_CONTENT_SIZE < pyUtf8Len bigContent := by
    rw [bigContent_utf8]
    norm_num [MAX_ASSISTANT_CONTENT_SIZE]
  have hd : deltaOf ("") bigContent = bigContent := by
    rw [deltaOf, if_pos rfl]
  have hrun : runDeltas ("") [bigContent] = (("") , [], true) := by
    rw [runDeltas, if_neg hne, hd, if_neg hne, if_pos hbig]
  refine ⟨List.chain'_singleton _, hrun, ?_⟩
  rw [hrun]
  show ("" : String) ≠ bigContent
  exact bigContent_ne_empty

/-! ### Claim C1: the per-frame size ceiling -/

/-- A new assistant message with no content and a function call yields the
`tool_call` frame directly — with no size check anywhere on the path. -/
lemma processMessage_toolCall (orc : Nat → Option String) (st : GenState) (idx : Nat)
    (msg : Msg) (f : FCall)
    (hrole : msg.role = Role.assistant) (hc : msg.content = none)
    (hnew : st.prevLen ≤ idx) (hfc : msg.functionCall = some f)
    (hname : ¬ (f.name.getD ("unknown_tool") = "ash_ssh_execute" ∨
      f.name.getD ("unknown_tool") = "ash_telnet_execute")) :
    processMessage orc st idx msg =
      ([sseFrame (toolCallPayload (f.name.getD ("unknown_tool"))
        (f.arguments.getD ("\x7b\x7d")) none)], st, false) := by
  have hcont : processAssistantContent st idx ("") = ([], st, false) := by
    rw [processAssistantContent, if_pos rfl]
  have hcmd : extractCommand (f.name.getD ("unknown_tool")) (f.arguments.getD ("\x7b\x7d")) f =
      none := by
    rw [extractCommand, if_neg hname]
  simp only [processMessage, hrole, hc, Option.getD_none, hcont, hfc, hcmd]
  simp [hnew, optTruthy]

/-- C1 (amended): the size ceiling is enforced only for events routed
through `_emit`: (a) every frame `_emit` writes is strictly below
`MAX_CHUNK_SIZE` and an event at or above the ceiling emits nothing through
it; but (b) a `tool_call` event of a newly observed function call is written
directly to the stream, unconditionally — the frame appears in the output
with no size hypothesis whatsoever, so an oversized `tool_call` frame is
still written. -/
theorem C1_amended (p : Payload) (g : Frame) (hg : g ∈ emitFrames p)
    (orc : Nat → Option String) (st : GenState) (idx : Nat) (msg : Msg) (f : FCall)
    (hrole : msg.role = Role.assistant) (hc : msg.content = none)
    (hnew : st.prevLen ≤ idx) (hfc : msg.functionCall = some f)
    (hname : ¬ (f.name.getD ("unknown_tool") = "ash_ssh_execute" ∨
      f.name.getD ("unknown_tool") = "ash_telnet_execute")) :
    utf8Len g < MAX_CHUNK_SIZE ∧
    (∀ q : Payload, ¬ sseSize q < MAX_CHUNK_SIZE → emitFrames q = []) ∧
    (processMessage orc st idx msg).1 =
      [sseFrame (toolCallPayload (f.name.getD ("unknown_tool"))
        (f.arguments.getD ("\x7b\x7d")) none)] := by
  refine ⟨?_, ?_, ?_⟩
  · rw [emitFrames] at hg
    by_cases he : emitOk p = true
    · rw [if_pos he] at hg
      simp only [List.mem_singleton] at hg
      subst hg
      rw [emitOk, decide_eq_true_eq] at he
      exact he
    · rw [if_neg he] at hg
      exact absurd hg (by simp)
  · intro q hq
    rw [emitFrames, if_neg (by simpa [emitOk] using hq)]
  · rw [processMessage_toolCall orc st idx msg f hrole hc hnew hfc hname]

/-- An oversized `tool_call` arguments string (40000 bytes of `a`). -/
def bigArgs : String := String.mk (List.replicate 40000 'a')

def c1Msg : Msg :=
  { role := Role.assistant, content := none,
    functionCall := some { name := some ("t"), arguments := some bigArgs, cmdParse := none },
    name := none, toolParse := ToolParse.malformed }

def c1Script : Script :=
  { chunks := [[c1Msg]], runError := none, summarizer := fun _ => none,
    doneTimestamp := ("T") }

/-- Witness for C1 (amended) at a concrete emitted frame and tool call. -/
theorem C1_amended_witness :
    utf8Len (sseFrame [("type", JVal.s ("done")), ("timestamp", JVal.s ("T"))]) <
      MAX_CHUNK_SIZE ∧
    (∀ q : Payload, ¬ sseSize q < MAX_CHUNK_SIZE → emitFrames q = []) ∧
    (processMessage (fun _ => none) initState 0 c1Msg).1 =
      [sseFrame (toolCallPayload ("t") bigArgs none)] :=
  C1_amended [("type", JVal.s ("done")), ("timestamp", JVal.s ("T"))] _ (by decide)
    (fun _ => none) initState 0 c1Msg
    { name := some ("t"), arguments := some bigArgs, cmdParse := none }
    rfl rfl (le_refl 0) rfl (by decide)

lemma processMessage_c1Msg :
    processMessage (fun _ => none) initState 0 c1Msg =
      ([sseFrame (toolCallPayload ("t") bigArgs none)], initState, false) := by
  have h := processMessage_toolCall (fun _ => none) initState 0 c1Msg
    { name := some ("t"), arguments := some bigArgs, cmdParse := none }
    rfl rfl (le_refl 0) rfl (by decide)
  exact h

lemma generateFrames_c1Script :
    generateFrames c1Script =
      [sseFrame (toolCallPayload ("t") bigArgs none),
       sseFrame [("type", JVal.s ("done")), ("timestamp", JVal.s ("T"))],
       doneSentinel] := by
  have h1 : processMsgsGo (fun _ => none) initState 0 [c1Msg] =
      ([sseFrame (toolCallPayload ("t") bigArgs none)], initState, false) := by
    rw [processMsgsGo]
    simp only [processMessage_c1Msg]
    rw [processMsgsGo]
    simp
  have h2 : processChunk (fun _ => none) initState [c1Msg] =
      ([sseFrame (toolCallPayload ("t") bigArgs none)],
        { initState with prevLen := 1 }, false) := by
    simp only [processChunk, h1]
    rfl
  have h3 : runChunks (fun _ => none) initState [[c1Msg]] =
      ([sseFrame (toolCallPayload ("t") bigArgs none)],
        { initState with prevLen := 1 }, false) := by
    rw [runChunks]
    simp only [h2]
    rw [runChunks]
    simp
  rw [generateFrames, generateBody]
  have hs : c1Script.summarizer = (fun _ => none) := rfl
  have hc : c1Script.chunks = [[c1Msg]] := rfl
  have he : c1Script.runError = none := rfl
  have ht : c1Script.doneTimestamp = ("T") := rfl
  rw [hs, hc, he, ht]
  simp only [h3]
  rw [show emitFrames [("type", JVal.s ("done")), ("timestamp", JVal.s ("T"))] =
    [sseFrame [("type", JVal.s ("done")), ("timestamp", JVal.s ("T"))]] from by
      rw [emitFrames, if_pos (by decide)]]
  simp

/-- Counterexample to C1 as stated: in the turn whose first snapshot carries
a function call with 40000 bytes of arguments, the first frame written to
the stream is that `tool_call` frame, and its serialized size is at least
`MAX_CHUNK_SIZE` — an over-ceiling frame is written. -/
theorem C1_counterexample :
    (generateFrames c1Script).headD [] =
      sseFrame (toolCallPayload ("t") bigArgs none) ∧
    MAX_CHUNK_SIZE ≤ utf8Len ((generateFrames c1Script).headD []) := by
  have hhead : (generateFrames c1Script).headD [] =
      sseFrame (toolCallPayload ("t") bigArgs none) := by
    rw [generateFrames_c1Script]
    rfl
  refine ⟨hhead, ?_⟩
  rw [hhead]
  have hmem : (("args"), JVal.s bigArgs) ∈ toolCallPayload ("t") bigArgs none := by
    rw [toolCallPayload]
    simp
  have h1 := entrySer_le_sseSize _ _ hmem
  have hser : entrySer (("args"), JVal.s bigArgs) =
      jsonString ("args") ++ [':', ' '] ++ jsonString bigArgs := rfl
  rw [hser, utf8Len_append, utf8Len_append] at h1
  have h2 : utf8Len (jsonString bigArgs) = 40000 + 2 := by
    rw [bigArgs]
    exact utf8Len_jsonString_replicate 40000 'a' (by decide) (by decide)
  rw [h2] at h1
  show MAX_CHUNK_SIZE ≤ sseSize (toolCallPayload ("t") bigArgs none)
  rw [MAX_CHUNK_SIZE]
  omega

/-! ### Claim C6: chunker floor behaviour -/

lemma emitFrames_eq_nil (q : Payload) (hq : emitOk q = false) : emitFrames q = [] := by
  rw [emitFrames, hq]
  simp

/-- The forced-chunk path of a freshly observed tool result whose every
chunk frame is rejected: the metadata frame is silently dropped, the stdout
chunker breaches the floor and leaves the single error event, the stderr
chunker is still run (here on empty text), no completion event follows, and
processing returns normally. -/
lemma processToolResult_forceChunk_allReject (orc : Nat → Option String) (st : GenState)
    (msg : Msg) (d : ToolDict)
    (hparse : msg.toolParse = ToolParse.parsed d)
    (hout : d.output ≠ "") (herr : d.error = "")
    (hsmall : ¬ (AUTO_SUMMARY_THRESHOLD < pyUtf8Len d.output + pyUtf8Len d.error))
    (hest : ¬ (MAX_CHUNK_SIZE ≤ pyUtf8Len d.output + pyUtf8Len d.error +
        (500 + (pyUtf8Len d.output + pyUtf8Len d.error) / 5) ∨
      MAX_CHUNK_SIZE - 1000 ≤ pyUtf8Len d.output + pyUtf8Len d.error))
    (hrejS : emitOk (structuredResultPayload (msg.name.getD ("unknown_tool"))
        (pyOrStr d.command st.queue.head?) (d.success.getD true) (d.exitCode.getD 0)
        d.output d.error) = false)
    (hrejM : emitOk (chunkedMetadataPayload (msg.name.getD ("unknown_tool"))
        (pyOrStr d.command st.queue.head?) (d.success.getD true) (d.exitCode.getD 0)
        (pyUtf8Len d.output + pyUtf8Len d.error)) = false)
    (hrejC : ∀ chunk n, emitOk (chunkPayload
        [("type", JVal.s ("tool_result_chunk")),
         ("name", JVal.s (msg.name.getD ("unknown_tool"))),
         ("stream", JVal.s ("stdout"))] ("chunk") ("index") chunk n) = false) :
    processToolResult orc st msg =
      ([sseFrame sizeLimitErrorPayload],
       { st with queue := st.queue.tail,
                 lastToolCtx := some { name := msg.name.getD ("unknown_tool"),
                                       command := pyOrStr d.command st.queue.head?,
                                       totalRawSize := pyUtf8Len d.output + pyUtf8Len d.error,
                                       stdoutHead := pyTake d.output 10000,
                                       stderrHead := pyTake d.error 2000 } }) := by
  have hforced : forcedChunkFrames (msg.name.getD ("unknown_tool"))
      (pyOrStr d.command st.queue.head?) (d.success.getD true) (d.exitCode.getD 0)
      d.output d.error (pyUtf8Len d.output + pyUtf8Len d.error) =
      [sseFrame sizeLimitErrorPayload] := by
    rw [forcedChunkFrames]
    rw [emitFrames_eq_nil _ hrejM]
    have hOut : emitToolStreamChunks (msg.name.getD ("unknown_tool")) ("stdout") d.output =
        (false, [sizeLimitErrorPayload]) := by
      rw [emitToolStreamChunks, if_neg hout, emitTextChunks]
      exact emitChunksGo_allReject _ _ _ hrejC (30 * 1024) _ _ 0 (by omega)
        (by intro h; exact hout (String.ext h))
    have hErr : emitToolStreamChunks (msg.name.getD ("unknown_tool")) ("stderr") d.error =
        (true, []) := by
      rw [emitToolStreamChunks, if_pos herr]
    rw [hOut, hErr]
    simp
  simp only [processToolResult, hparse]
  rw [if_neg hsmall]
  simp only
  rw [if_neg hest]
  simp only [hrejS, Bool.false_eq_true, if_false]
  rw [hforced]
  simp

/-- C6 (amended): on every rejection the chunker shrinks the chunk size by
`int(0.7·size)` and retries the same slice position; when the emitter
rejects every chunk of a base, the size falls below the 5000-byte floor,
exactly one final error event is emitted and failure is signalled to the
caller — but the caller does not abort the response stream: tool-result
processing never triggers the generator's early return, and later
transcript events are still emitted. -/
theorem C6_amended (base : Payload) (textKey indexKey : String) (text : List Char)
    (initialChunkSize : Nat) (hne : text ≠ [])
    (hrej : ∀ chunk n, emitOk (chunkPayload base textKey indexKey chunk n) = false)
    (fuel c2 ci2 : Nat) (hfloor : 5000 ≤ pyInt07 c2)
    (orc : Nat → Option String) (st : GenState) (idx : Nat) (msg : Msg)
    (hrole : msg.role = Role.tool ∨ msg.role = Role.function) :
    emitTextChunks base textKey indexKey text initialChunkSize =
      (false, [sizeLimitErrorPayload]) ∧
    emitChunksGo base textKey indexKey (fuel + 1) text c2 ci2 =
      emitChunksGo base textKey indexKey fuel text (pyInt07 c2) ci2 ∧
    (processMessage orc st idx msg).2.2 = false := by
  refine ⟨?_, ?_, ?_⟩
  · rw [emitTextChunks]
    exact emitChunksGo_allReject base textKey indexKey hrej initialChunkSize _ text 0
      (by omega) hne
  · exact emitChunksGo_shrink_step base textKey indexKey fuel text c2 ci2 hne
      (hrej _ _) hfloor
  · rcases hrole with h | h
    · simp only [processMessage, h]
      by_cases hn : st.prevLen ≤ idx
      · rw [if_pos hn]
      · rw [if_neg hn]
    · simp only [processMessage, h]
      by_cases hn : st.prevLen ≤ idx
      · rw [if_pos hn]
      · rw [if_neg hn]

/-- A 40000-byte tool name, which makes every frame naming the tool exceed
the ceiling. -/
def bigName : String := String.mk (List.replicate 40000 'n')

lemma emitOk_bigName (p : Payload) (hmem : (("name"), JVal.s bigName) ∈ p) :
    emitOk p = false :=
  emitOk_eq_false_of_mem_big p ("name") 40000 'n'
    (by rw [bigName] at hmem; exact hmem) (by decide) (by decide)
    (by rw [MAX_CHUNK_SIZE]; omega)

def c6Base : Payload :=
  [("type", JVal.s ("tool_result_chunk")), ("name", JVal.s bigName),
   ("stream", JVal.s ("stdout"))]

lemma c6_rejAll : ∀ chunk n,
    emitOk (chunkPayload c6Base ("chunk") ("index") chunk n) = false := by
  intro chunk n
  apply emitOk_bigName
  apply mem_dictSet_of_ne _ _ _ _ _ (by decide)
  apply mem_dictSet_of_ne _ _ _ _ _ (by decide)
  rw [c6Base]
  exact List.mem_cons_of_mem _ (List.mem_cons_self _ _)

def c6Dict : ToolDict :=
  { command := some ("cmd"), output := ("x"), error := (""), success := some true,
    exitCode := some 0 }

def c6ToolMsg : Msg :=
  { role := Role.tool, content := some (""), functionCall := none, name := some bigName,
    toolParse := ToolParse.parsed c6Dict }

/-- Witness for C6 (amended) at the concrete oversized-name base. -/
theorem C6_amended_witness :
    emitTextChunks c6Base ("chunk") ("index") ("x").data 30720 =
      (false, [sizeLimitErrorPayload]) ∧
    emitChunksGo c6Base ("chunk") ("index") (5 + 1) ("x").data 30720 0 =
      emitChunksGo c6Base ("chunk") ("index") 5 ("x").data (pyInt07 30720) 0 ∧
    (processMessage (fun _ => none) initState 0 c6ToolMsg).2.2 = false :=
  C6_amended c6Base ("chunk") ("index") ("x").data 30720 (by decide) c6_rejAll
    5 30720 0 (by rw [pyInt07_30720]; norm_num)
    (fun _ => none) initState 0 c6ToolMsg (Or.inl rfl)

/-- Dispatch of a newly observed tool/function message. -/
lemma processMessage_toolResult (orc : Nat → Option String) (st : GenState) (idx : Nat)
    (msg : Msg) (res : List Frame × GenState)
    (hrole : msg.role = Role.tool ∨ msg.role = Role.function)
    (hnew : st.prevLen ≤ idx)
    (hpt : processToolResult orc st msg = res) :
    processMessage orc st idx msg = (res.1, res.2, false) := by
  rcases hrole with h | h <;>
    · simp only [processMessage, h]
      rw [if_pos hnew, hpt]

/-- Dispatch of an assistant message without a function call. -/
lemma processMessage_assistant_noFC (orc : Nat → Option String) (st : GenState) (idx : Nat)
    (msg : Msg) (c : String) (fr : List Frame) (st' : GenState)
    (hrole : msg.role = Role.assistant) (hcont : msg.content = some c)
    (hfc : msg.functionCall = none)
    (hpc : processAssistantContent st idx c = (fr, st', false)) :
    processMessage orc st idx msg = (fr, st', false) := by
  simp only [processMessage, hrole, hcont, Option.getD_some, hpc, hfc]
  by_cases hn : st.prevLen ≤ idx <;> simp [hn]

/-- One fold step of the message loop when the message does not abort. -/
lemma processMsgsGo_cons_ok (orc : Nat → Option String) (st : GenState) (idx : Nat)
    (m : Msg) (rest : List Msg) (f : List Frame) (st' : GenState)
    (h : processMessage orc st idx m = (f, st', false)) :
    processMsgsGo orc st idx (m :: rest) =
      (f ++ (processMsgsGo orc st' (idx + 1) rest).1,
       (processMsgsGo orc st' (idx + 1) rest).2.1,
       (processMsgsGo orc st' (idx + 1) rest).2.2) := by
  rw [processMsgsGo]
  simp only [h]
  simp

/-- Processing of a first-time assistant content that fits in one frame. -/
lemma processAssistantContent_fresh (st : GenState) (idx : Nat) (c : String)
    (hc : c ≠ "") (hmap : st.contentMap idx = "")
    (hsize : ¬ (MAX_ASSISTANT_CONTENT_SIZE < pyUtf8Len c))
    (hfits : emitOk [("type", JVal.s ("content_chunk")), ("content", JVal.s c)] = true) :
    processAssistantContent st idx c =
      ([sseFrame [("type", JVal.s ("content_chunk")), ("content", JVal.s c)]],
       { st with contentMap := updMap st.contentMap idx c }, false) := by
  rw [processAssistantContent, if_neg hc]
  simp only [hmap]
  rw [show deltaOf ("") c = c from by rw [deltaOf, if_pos rfl]]
  rw [if_neg hc, if_neg hsize, if_pos hfits]

def c6HiMsg : Msg :=
  { role := Role.assistant, content := some ("hi"), functionCall := none, name := none,
    toolParse := ToolParse.malformed }

/-- Counterexample to C6 as stated: processing the snapshot
`[c6ToolMsg, c6HiMsg]` — a tool result whose 40000-byte tool name makes the
emitter reject every chunk down to the floor, followed by an ordinary
assistant message — writes the floor-breach error event and then STILL
writes the later message's content event, and the loop does not abort: the
response stream is not torn down after the chunker failure. -/
theorem C6_counterexample :
    (processChunk (fun _ => none) initState [c6ToolMsg, c6HiMsg]).1 =
      [sseFrame sizeLimitErrorPayload,
       sseFrame [("type", JVal.s ("content_chunk")), ("content", JVal.s ("hi"))]] ∧
    (processChunk (fun _ => none) initState [c6ToolMsg, c6HiMsg]).2.2 = false := by
  have hname : c6ToolMsg.name.getD ("unknown_tool") = bigName := rfl
  have h1 : processToolResult (fun _ => none) initState c6ToolMsg =
      ([sseFrame sizeLimitErrorPayload],
       { initState with
           queue := initState.queue.tail,
           lastToolCtx := some { name := c6ToolMsg.name.getD ("unknown_tool"),
                                 command := pyOrStr c6Dict.command initState.queue.head?,
                                 totalRawSize := pyUtf8Len c6Dict.output + pyUtf8Len c6Dict.error,
                                 stdoutHead := pyTake c6Dict.output 10000,
                                 stderrHead := pyTake c6Dict.error 2000 } }) := by
    apply processToolResult_forceChunk_allReject (fun _ => none) initState c6ToolMsg c6Dict
      rfl (by decide) rfl (by decide) (by decide)
    · apply emitOk_bigName
      rw [structuredResultPayload, hname]
      exact List.mem_cons_of_mem _ (List.mem_cons_self _ _)
    · apply emitOk_bigName
      rw [chunkedMetadataPayload, hname]
      exact List.mem_cons_of_mem _ (List.mem_cons_self _ _)
    · intro chunk n
      have h := c6_rejAll chunk n
      rw [c6Base] at h
      rw [hname]
      exact h
  set st1 : GenState :=
    { initState with
        queue := initState.queue.tail,
        lastToolCtx := some { name := c6ToolMsg.name.getD ("unknown_tool"),
                              command := pyOrStr c6Dict.command initState.queue.head?,
                              totalRawSize := pyUtf8Len c6Dict.output + pyUtf8Len c6Dict.error,
                              stdoutHead := pyTake c6Dict.output 10000,
                              stderrHead := pyTake c6Dict.error 2000 } } with hst1
  have hp0 : initState.prevLen ≤ 0 := by
    rw [show initState.prevLen = 0 from rfl]
  have h1' : processMessage (fun _ => none) initState 0 c6ToolMsg =
      ([sseFrame sizeLimitErrorPayload], st1, false) := by
    rw [processMessage_toolResult (fun _ => none) initState 0 c6ToolMsg
      ([sseFrame sizeLimitErrorPayload], st1) (Or.inl rfl) hp0 (hst1 ▸ h1)]
  have h2 : processAssistantContent st1 1 ("hi") =
      ([sseFrame [("type", JVal.s ("content_chunk")), ("content", JVal.s ("hi"))]],
       { st1 with contentMap := updMap st1.contentMap 1 ("hi") }, false) :=
    processAssistantContent_fresh st1 1 ("hi") (by decide) rfl (by decide) (by decide)
  have h2' : processMessage (fun _ => none) st1 1 c6HiMsg =
      ([sseFrame [("type", JVal.s ("content_chunk")), ("content", JVal.s ("hi"))]],
       { st1 with contentMap := updMap st1.contentMap 1 ("hi") }, false) :=
    processMessage_assistant_noFC (fun _ => none) st1 1 c6HiMsg ("hi") _ _ rfl rfl rfl h2
  have hgo : processMsgsGo (fun _ => none) initState 0 [c6ToolMsg, c6HiMsg] =
      ([sseFrame sizeLimitErrorPayload,
        sseFrame [("type", JVal.s ("content_chunk")), ("content", JVal.s ("hi"))]],
       { st1 with contentMap := updMap st1.contentMap 1 ("hi") }, false) := by
    rw [processMsgsGo_cons_ok (fun _ => none) initState 0 c6ToolMsg [c6HiMsg] _ _ h1']
    rw [processMsgsGo_cons_ok (fun _ => none) st1 1 c6HiMsg [] _ _ h2']
    rw [processMsgsGo]
    simp
  rw [processChunk]
  simp only [hgo]
  exact ⟨rfl, rfl⟩

/-! ### Claim C5: auto-summarization shape -/

/-- The in-loop auto-summarization path: over the 5 MiB threshold with a
non-empty summarizer result, the loop writes the size notice, the success
notice, and then one `tool_result` event whose `stdout` is the summary
annotation — an event with exactly the keys `type, name, command, success,
exitCode, stdout, stderr`. -/
lemma processToolResult_summarized (orc : Nat → Option String) (st : GenState)
    (msg : Msg) (d : ToolDict) (s : String)
    (hparse : msg.toolParse = ToolParse.parsed d)
    (hbig : AUTO_SUMMARY_THRESHOLD < pyUtf8Len d.output + pyUtf8Len d.error)
    (horc : orc st.summaryCount = some s) (hs : ¬ s = "")
    (hest : ¬ (MAX_CHUNK_SIZE ≤
        pyUtf8Len (annotateSummary (pyUtf8Len d.output + pyUtf8Len d.error) s) +
          pyUtf8Len d.error +
          (500 + (pyUtf8Len (annotateSummary (pyUtf8Len d.output + pyUtf8Len d.error) s) +
            pyUtf8Len d.error) / 5) ∨
      MAX_CHUNK_SIZE - 1000 ≤
        pyUtf8Len (annotateSummary (pyUtf8Len d.output + pyUtf8Len d.error) s) +
          pyUtf8Len d.error))
    (hfits : emitOk (structuredResultPayload (msg.name.getD ("unknown_tool"))
        (pyOrStr d.command st.queue.head?) (d.success.getD true) (d.exitCode.getD 0)
        (annotateSummary (pyUtf8Len d.output + pyUtf8Len d.error) s) d.error) = true) :
    (processToolResult orc st msg).1 =
      [sseFrame (systemMessagePayload ("Command output is very large (" ++
         toString ((pyUtf8Len d.output + pyUtf8Len d.error) / 1024 / 1024) ++
         "MB). Generating summary...")),
       sseFrame (systemMessagePayload ("Summary generated successfully.")),
       sseFrame (structuredResultPayload (msg.name.getD ("unknown_tool"))
         (pyOrStr d.command st.queue.head?) (d.success.getD true) (d.exitCode.getD 0)
         (annotateSummary (pyUtf8Len d.output + pyUtf8Len d.error) s) d.error)] := by
  simp only [processToolResult, hparse]
  rw [if_pos hbig]
  simp only [horc]
  rw [if_neg hs]
  simp only
  rw [if_neg hest, if_pos hfits]
  simp

/-- C5 (amended): for a tool result over the 5 MiB auto-summary threshold
with a summarizer returning a non-empty string, the emitted `tool_result`
event carries the summary text inside its `stdout` annotation (which also
records the original byte size as text), but the event has no
`summary: true` and no `originalSize` field — those fields exist only on
the exception-path recovery event (`summarizedResultPayload`). -/
theorem C5_summarization_shape (orc : Nat → Option String) (st : GenState)
    (msg : Msg) (d : ToolDict) (s : String)
    (hparse : msg.toolParse = ToolParse.parsed d)
    (hbig : AUTO_SUMMARY_THRESHOLD < pyUtf8Len d.output + pyUtf8Len d.error)
    (horc : orc st.summaryCount = some s) (hs : ¬ s = "")
    (hest : ¬ (MAX_CHUNK_SIZE ≤
        pyUtf8Len (annotateSummary (pyUtf8Len d.output + pyUtf8Len d.error) s) +
          pyUtf8Len d.error +
          (500 + (pyUtf8Len (annotateSummary (pyUtf8Len d.output + pyUtf8Len d.error) s) +
            pyUtf8Len d.error) / 5) ∨
      MAX_CHUNK_SIZE - 1000 ≤
        pyUtf8Len (annotateSummary (pyUtf8Len d.output + pyUtf8Len d.error) s) +
          pyUtf8Len d.error))
    (hfits : emitOk (structuredResultPayload (msg.name.getD ("unknown_tool"))
        (pyOrStr d.command st.queue.head?) (d.success.getD true) (d.exitCode.getD 0)
        (annotateSummary (pyUtf8Len d.output + pyUtf8Len d.error) s) d.error) = true) :
    (processToolResult orc st msg).1 =
      [sseFrame (systemMessagePayload ("Command output is very large (" ++
         toString ((pyUtf8Len d.output + pyUtf8Len d.error) / 1024 / 1024) ++
         "MB). Generating summary...")),
       sseFrame (systemMessagePayload ("Summary generated successfully.")),
       sseFrame (structuredResultPayload (msg.name.getD ("unknown_tool"))
         (pyOrStr d.command st.queue.head?) (d.success.getD true) (d.exitCode.getD 0)
         (annotateSummary (pyUtf8Len d.output + pyUtf8Len d.error) s) d.error)] :=
  processToolResult_summarized orc st msg d s hparse hbig horc hs hest hfits

/-- A 6 MiB tool output. -/
def bigOut : String := String.mk (List.replicate (6 * 1024 * 1024) 'a')

lemma bigOut_utf8 : pyUtf8Len bigOut = 6291456 := by
  rw [pyUtf8Len, bigOut]
  rw [show (String.mk (List.replicate (6 * 1024 * 1024) 'a')).data =
    List.replicate (6 * 1024 * 1024) 'a' from rfl]
  rw [utf8Len_replicate, show ('a').utf8Size = 1 from by decide]

def c5Dict : ToolDict :=
  { command := some ("cat big"), output := bigOut, error := (""), success := some true,
    exitCode := some 0 }

def c5Msg : Msg :=
  { role := Role.tool, content := some (""), functionCall := none, name := some ("exec"),
    toolParse := ToolParse.parsed c5Dict }

lemma c5_frames :
    (processToolResult (fun _ => some ("ok")) initState c5Msg).1 =
      [sseFrame (systemMessagePayload ("Command output is very large (" ++
         toString ((6291456 : Nat) / 1024 / 1024) ++ "MB). Generating summary...")),
       sseFrame (systemMessagePayload ("Summary generated successfully.")),
       sseFrame (structuredResultPayload (("exec")) (some ("cat big")) true 0
         (annotateSummary 6291456 ("ok")) (""))] := by
  have hout : c5Dict.output = bigOut := rfl
  have herr : c5Dict.error = ("") := rfl
  have hz : pyUtf8Len ("") = 0 := rfl
  have hsum : pyUtf8Len c5Dict.output + pyUtf8Len c5Dict.error = 6291456 := by
    rw [hout, herr, hz, bigOut_utf8]
  have h := processToolResult_summarized (fun _ => some ("ok")) initState c5Msg c5Dict ("ok")
    rfl (by rw [hsum]; norm_num [AUTO_SUMMARY_THRESHOLD]) rfl (by decide)
    (by rw [hsum]; decide) (by rw [hsum]; decide)
  rw [hsum] at h
  rw [h, herr]
  rfl

/-- Witness for C5 (amended) at the concrete 6 MiB result. -/
theorem C5_summarization_shape_witness :
    (processToolResult (fun _ => some ("ok")) initState c5Msg).1 =
      [sseFrame (systemMessagePayload ("Command output is very large (" ++
         toString ((pyUtf8Len c5Dict.output + pyUtf8Len c5Dict.error) / 1024 / 1024) ++
         "MB). Generating summary...")),
       sseFrame (systemMessagePayload ("Summary generated successfully.")),
       sseFrame (structuredResultPayload (c5Msg.name.getD ("unknown_tool"))
         (pyOrStr c5Dict.command initState.queue.head?) (c5Dict.success.getD true)
         (c5Dict.exitCode.getD 0)
         (annotateSummary (pyUtf8Len c5Dict.output + pyUtf8Len c5Dict.error) ("ok"))
         c5Dict.error)] := by
  have hsum : pyUtf8Len c5Dict.output + pyUtf8Len c5Dict.error = 6291456 := by
    rw [show c5Dict.output = bigOut from rfl, show c5Dict.error = ("") from rfl,
      show pyUtf8Len ("") = 0 from rfl, bigOut_utf8]
  exact C5_summarization_shape (fun _ => some ("ok")) initState c5Msg c5Dict ("ok")
    rfl (by rw [hsum]; norm_num [AUTO_SUMMARY_THRESHOLD]) rfl (by decide)
    (by rw [hsum]; decide) (by rw [hsum]; decide)

/-- Counterexample to C5 as stated: for the 6 MiB tool result and the
summarizer answer `"ok"`, the loop does emit a `tool_result` event, but no
frame of the emission contains a `"summary"` or an `"originalSize"` key —
the fields the claim requires are absent from the wire. -/
theorem C5_counterexample :
    ((processToolResult (fun _ => some ("ok")) initState c5Msg).1.any
      (fun fr => substrInL ("\"type\": \"tool_result\"").data fr) = true) ∧
    ((processToolResult (fun _ => some ("ok")) initState c5Msg).1.all
      (fun fr => !(substrInL ("\"summary\"").data fr) &&
                 !(substrInL ("\"originalSize\"").data fr)) = true) := by
  rw [c5_frames]
  constructor
  · decide
  · decide

end Ash
